import Mathlib

/-!
A shallow embedding of the struct-validation engine of the govalidator
package (`validator.go`, `error.go`).

Modelling conventions:
* Go's reflected values are embedded as the tagged variant `Value` below;
  a struct field carries its name, package path (non-empty for private
  fields), `valid` tag, `json` tag and value.  `Uintptr` is a
  constructor of its own (the parameterized-rule dispatch accepts the
  other unsigned kinds but not it); a float value is carried as the two
  observations the code makes of it, its `fmt.Sprint` rendering and its
  `== 0` test.
* The package globals `errorsMap`, `tags` and `msgs` are threaded
  explicitly as a `GState`; the global `fieldsRequiredByDefault` and the
  rule registries (`TagMap`, `ParamTagMap`, `ParamTagRegexMap`,
  `CustomTypeTagMap`, defined in the repository's `types.go`, which is
  not part of the sources at hand) are a `Config` parameter.
* General recursion over (possibly deeply nested) values is expressed
  with an explicit fuel parameter; running out of fuel yields the
  distinguished error `VErr.fuelOut` and result `false`.  The Go
  functions are total on finite values, so every claim is stated either
  for all fuel values or with enough fuel for the concrete input.
* `range` loops over the global `tags` slice iterate over the list as
  captured at loop entry.  (Go's `range` captures the slice header; the
  mid-loop `deleteTagAndMsg` shifts the shared backing array, which can
  skip or repeat entries once two or more elements follow a deletion.
  All concrete inputs used below stay inside the regime where the two
  semantics agree.)
* `reflect.Value.IsValid` is always true for embedded values, so the
  `!v.IsValid()` early return of `validateField` cannot fire and is not
  modelled.
-/

namespace GoValidator

mutual
/-- Go `reflect` values, restricted to the kinds `validateField` deals
with.  `vUint` covers the `reflect.Uint*` kinds; `vUintptr` is
`reflect.Uintptr`, kept apart because the parameterized-rule inner
switch (lines 950-954) accepts the former but not the latter.
`vFloat` covers `reflect.Float32/Float64` and carries the only two
observations the modelled code makes of a float: its `fmt.Sprint`
rendering and its `== 0` test (no theorem relies on any relation
between the two).  `vMapBadKey` stands for a map whose key type is not
`string` (its contents are never inspected, only its type name is
reported); `vUnsupported` stands for any other kind (chan, func,
complex, ...), carrying the kind name and the type name used in error
messages. -/
inductive Value where
  | vBool (b : Bool)
  | vInt (n : Int)
  | vUint (n : Nat)
  | vUintptr (n : Nat)
  | vFloat (repr : String) (isZero : Bool)
  | vString (s : String)
  | vStruct (fields : List SField)
  | vSlice (elems : List Value)
  | vMap (entries : List (String × Value))
  | vMapBadKey (typeStr : String)
  | vPtr (elem : Option Value)
  | vIface (elem : Option Value)
  | vUnsupported (kindStr typeStr : String)

/-- One struct field as seen through `reflect`: name, package path
(empty iff the field is exported), the `valid` tag, the `json` tag and
the field's value. -/
inductive SField where
  | mk (name pkgPath validTag jsonTag : String) (value : Value)
end

def SField.name : SField → String
  | .mk n _ _ _ _ => n

def SField.pkgPath : SField → String
  | .mk _ p _ _ _ => p

def SField.validTag : SField → String
  | .mk _ _ vt _ _ => vt

def SField.jsonTag : SField → String
  | .mk _ _ _ jt _ => jt

def SField.value : SField → Value
  | .mk _ _ _ _ v => v

/-- The `Error` struct of `error.go`: field name, message (the wrapped
`Err`'s text), whether a custom message exists, and the failing
validator's name. -/
structure ValError where
  name : String
  errMsg : String
  custom : Bool
  validator : String
  deriving DecidableEq, Repr

/-- The `error` values returned by `validateStruct`/`validateField`:
an `Error`, an `Errors` slice, an `*UnsupportedTypeError`, a plain
`fmt.Errorf` error, or the model-only out-of-fuel marker. -/
inductive VErr where
  | err (e : ValError)
  | errs (es : List ValError)
  | unsupported (typeStr : String)
  | plain (msg : String)
  | fuelOut
  deriving DecidableEq, Repr

/-- The package-global mutable state of `validator.go`: `errorsMap`
(`none` before the first `Validate` call initializes it), the parsed
`tags` list and the `msgs` tag-to-custom-message map of the field
currently being validated. -/
structure GState where
  errorsMap : Option (List (String × List String))
  tags : List String
  msgs : List (String × String)
  deriving DecidableEq, Repr

/-- The process-wide configuration: the `fieldsRequiredByDefault` flag
and the four rule registries of `types.go`.  A parameterized rule is
looked up through `paramTagRegex` (the model of `ParamTagRegexMap`): a
list of (registry key, matcher); a matcher returns the extracted
parameter submatches when its regular expression matches a rule token. -/
structure Config where
  fieldsRequiredByDefault : Bool
  tagMap : String → Option (String → Bool)
  paramTagMap : String → Option (String → List String → Bool)
  paramTagRegex : List (String × (String → Option (List String)))
  customTypeTagMap : String → Option (Value → Value → Bool)

/-! ### Go string primitives (modelled on character lists) -/

/-- `strings.Split(s, sep)` for a one-character separator. -/
def goSplitChars (sep : Char) : List Char → List (List Char)
  | [] => [[]]
  | c :: cs =>
    match goSplitChars sep cs with
    | [] => [[]]
    | r :: rs => if c = sep then [] :: r :: rs else (c :: r) :: rs

def goSplit (sep : Char) (s : String) : List String :=
  (goSplitChars sep s.toList).map String.mk

/-- The characters `unicode.IsSpace` accepts (ASCII subset). -/
def isGoSpace (c : Char) : Bool :=
  c = ' ' || c = '\t' || c = '\n' || c = '\r'

/-- `strings.TrimSpace`. -/
def goTrimSpace (s : String) : String :=
  String.mk (((s.toList.dropWhile isGoSpace).reverse.dropWhile isGoSpace).reverse)

/-- `strings.Trim(s, " ")` — used by `Error.Error()`. -/
def goTrimBlanks (s : String) : String :=
  String.mk (((s.toList.dropWhile (· = ' ')).reverse.dropWhile (· = ' ')).reverse)

/-- `len(str)` in bytes (Go strings are UTF-8). -/
def goStrLen (s : String) : Nat :=
  s.toList.foldl (fun a c => a + c.utf8Size) 0

/-- The message text of an `error` value (`Err.Error()`):
an `Error` trims blanks, an `Errors` joins with `;`. -/
def valErrorString (e : ValError) : String :=
  goTrimBlanks e.errMsg

def vErrString : VErr → String
  | .err e => valErrorString e
  | .errs es => String.intercalate ";" (es.map valErrorString)
  | .unsupported ty => "validator: unsupported type: " ++ ty
  | .plain m => m
  | .fuelOut => "model: out of fuel"

/-- `NewError` of `error.go`: wraps any error, keeping only its message;
the name and validator are left empty and `CustomErrorMessageExists` is
set. -/
def NewError (e : VErr) : ValError :=
  { name := "", errMsg := vErrString e, custom := true, validator := "" }

/-! ### Tag parsing -/

/-- The reserved punctuation allowed in tag names by `isValidTag`
(backslash, quotes, and the listed marks, space included). -/
def reservedTagChars : List Char :=
  ['\\', '\'', '"', '!', '#', '$', '%', '&', '(', ')', '*', '+', '-',
   '.', '/', ':', '<', '=', '>', '?', '@', '[', ']', '^', '_',
   '{', '|', '}', '~', ' ']

/-- `isValidTag`: non-empty, every character a letter, digit or reserved
punctuation mark.  (`unicode.IsLetter/IsDigit` are modelled by the
ASCII classifiers; the tags exercised below are ASCII.) -/
def isValidTag (s : String) : Bool :=
  s ≠ "" && s.toList.all fun c =>
    reservedTagChars.contains c || c.isAlpha || c.isDigit

/-- Association-list update with Go map semantics (`m[k] = v`):
overwrite in place if present, else add. -/
def mapPut (k v : String) : List (String × String) → List (String × String)
  | [] => [(k, v)]
  | (k', v') :: rest =>
    if k' = k then (k, v) :: rest else (k', v') :: mapPut k v rest

/-- Association-list lookup with Go map semantics: a missing string key
reads as the zero value `""`; `lookupMsg?` is the comma-ok form. -/
def lookupMsg? (m : List (String × String)) (k : String) : Option String :=
  (m.find? (fun p => p.1 = k)).map Prod.snd

def lookupMsg (m : List (String × String)) (k : String) : String :=
  (lookupMsg? m k).getD ""

/-- `parseTagIntoMap`: reset the global `tags`/`msgs`, split the
annotation on commas, trim each option, split once on `~` into rule
token and custom message, and drop tokens failing `isValidTag`. -/
def parseTagIntoMap (tag : String) (st : GState) : GState :=
  let options := goSplit ',' tag
  let step := fun (acc : List String × List (String × String)) (opt : String) =>
    let opt := goTrimSpace opt
    let validationOptions := goSplit '~' opt
    match validationOptions with
    | [] => acc
    | t0 :: rest =>
      if !isValidTag t0 then acc
      else
        let tags := acc.1 ++ [t0]
        let msgs :=
          if rest.length = 1 then mapPut t0 (rest.headD "") acc.2
          else mapPut t0 "" acc.2
        (tags, msgs)
  let r := options.foldl step ([], [])
  { st with tags := r.1, msgs := r.2 }

/-! ### Emptiness and presence -/

mutual
/-- `reflect.DeepEqual(v, reflect.Zero(type))`, the default branch of
`isEmptyValue` (reached for struct kinds). -/
def isZeroValue : Value → Bool
  | .vBool b => b = false
  | .vInt n => n = 0
  | .vUint n => n = 0
  | .vUintptr n => n = 0
  | .vFloat _ z => z
  | .vString s => s = ""
  | .vStruct fs => isZeroFieldList fs
  | .vSlice es => es.isEmpty
  | .vMap es => es.isEmpty
  | .vMapBadKey _ => true
  | .vPtr e => e.isNone
  | .vIface e => e.isNone
  | .vUnsupported _ _ => true

def isZeroFieldList : List SField → Bool
  | [] => true
  | f :: fs => isZeroSField f && isZeroFieldList fs

def isZeroSField : SField → Bool
  | .mk _ _ _ _ v => isZeroValue v
end

/-- `isEmptyValue`, by kind; the default case falls back to structural
equality with the type's zero value. -/
def isEmptyValue (v : Value) : Bool :=
  match v with
  | .vString s => goStrLen s = 0
  | .vMap es => es.isEmpty
  | .vSlice es => es.isEmpty
  | .vBool b => !b
  | .vInt n => n = 0
  | .vUint n => n = 0
  | .vUintptr n => n = 0
  | .vFloat _ z => z
  | .vIface e => e.isNone
  | .vPtr e => e.isNone
  | _ => isZeroValue v

/-- `checkRequired`: a declared `required` fails an empty value (with
its custom message when set); otherwise the `fieldsRequiredByDefault`
flag fails it unless `optional` is declared. -/
def checkRequired (t : SField) (options : List (String × String))
    (fieldsRequiredByDefault : Bool) : Bool × Option ValError :=
  match lookupMsg? options "required" with
  | some requiredOption =>
    if requiredOption.length > 0 then
      (false, some { name := t.name, errMsg := requiredOption, custom := true, validator := "required" })
    else
      (false, some { name := t.name, errMsg := "non zero value required", custom := false, validator := "required" })
  | none =>
    if fieldsRequiredByDefault && (lookupMsg? options "optional").isNone then
      (false, some { name := t.name, errMsg := "Missing required field", custom := false, validator := "required" })
    else
      (true, none)

/-- `checkForbidden`: a declared `forbidden` fails a non-empty value. -/
def checkForbidden (t : SField) (options : List (String × String)) :
    Bool × Option ValError :=
  match lookupMsg? options "forbidden" with
  | some option =>
    if option.length > 0 then
      (false, some { name := t.name, errMsg := option, custom := true, validator := "forbidden" })
    else
      (false, some { name := t.name, errMsg := "Illegal attribute", custom := false, validator := "forbidden" })
  | none => (true, none)

/-! ### Error bookkeeping -/

/-- `toJSONName`: the first comma-separated component of a `json` tag;
`"-"` (field skipped in serialization) and the empty tag both yield
`""`. -/
def toJSONName (tag : String) : String :=
  if tag = "" then ""
  else
    let name := (goSplit ',' tag).headD ""
    if name = "-" then "" else name

/-- Append one message under a key of the errors map, creating the key
if needed (Go `m[k] = append(m[k], msg)`). -/
def emAppend (k msg : String) : List (String × List String) → List (String × List String)
  | [] => [(k, [msg])]
  | (k', l) :: rest =>
    if k' = k then (k, l ++ [msg]) :: rest else (k', l) :: emAppend k msg rest

/-- `appendErrorsMap`: a no-op while `errorsMap` is nil; otherwise
append `err.Error()` under the JSON name of the field's `json` tag. -/
def appendErrorsMap (attr : String) (e : ValError) (st : GState) : GState :=
  match st.errorsMap with
  | none => st
  | some m => { st with errorsMap := some (emAppend (toJSONName attr) (valErrorString e) m) }

/-- One step of `removeDuplicates`: the accumulator holds the kept
prefix and the `found` set. -/
def dedupStep (acc : List String × List String) (x : String) : List String × List String :=
  if acc.2.contains x then acc else (acc.1 ++ [x], x :: acc.2)

/-- `removeDuplicates`: keep the first occurrence of each string. -/
def removeDuplicates (xs : List String) : List String :=
  (xs.foldl dedupStep ([], [])).1

/-- `removeDuplicateErrors`: deduplicate every field's message list. -/
def removeDuplicateErrors (st : GState) : GState :=
  match st.errorsMap with
  | none => st
  | some m => { st with errorsMap := some (m.map fun p => (p.1, removeDuplicates p.2)) }

/-- `allErrors`: the report under the fixed top-level key. -/
def allErrors (st : GState) : List (String × List (String × List String)) :=
  [("errors", st.errorsMap.getD [])]

/-- `deleteTagAndMsg`: drop the key from `msgs` and the first matching
entry from `tags`. -/
def eraseFirst (tag : String) : List String → List String
  | [] => []
  | t :: ts => if t = tag then ts else t :: eraseFirst tag ts

def mapDelete (k : String) : List (String × String) → List (String × String)
  | [] => []
  | (k', v) :: rest => if k' = k then rest else (k', v) :: mapDelete k rest

def deleteTagAndMsg (tag : String) (st : GState) : GState :=
  { st with msgs := mapDelete tag st.msgs, tags := eraseFirst tag st.tags }

/-! ### Value rendering and rule dispatch -/

/-- `reflect.Kind.String()` for the modelled kinds. -/
def kindName : Value → String
  | .vBool _ => "bool"
  | .vInt _ => "int"
  | .vUint _ => "uint"
  | .vUintptr _ => "uintptr"
  | .vFloat _ _ => "float64"
  | .vString _ => "string"
  | .vStruct _ => "struct"
  | .vSlice _ => "slice"
  | .vMap _ => "map"
  | .vMapBadKey _ => "map"
  | .vPtr _ => "ptr"
  | .vIface _ => "interface"
  | .vUnsupported k _ => k

mutual
/-- `fmt.Sprint` of a reflected value.  Scalars render exactly as Go
does; compound shapes are approximated (pointers print an address in
Go, which is not modelled) and are never relied upon by the theorems
below. -/
def sprintValue : Value → String
  | .vBool b => if b then "true" else "false"
  | .vInt n => toString n
  | .vUint n => toString n
  | .vUintptr n => toString n
  | .vFloat r _ => r
  | .vString s => s
  | .vStruct fs => "\x7b" ++ String.intercalate " " (sprintFields fs) ++ "\x7d"
  | .vSlice es => "[" ++ String.intercalate " " (sprintList es) ++ "]"
  | .vMap es => "map[" ++ String.intercalate " " (es.map Prod.fst) ++ "]"
  | .vMapBadKey _ => "map[]"
  | .vPtr _ => "<ptr>"
  | .vIface (some u) => sprintValue u
  | .vIface none => "<nil>"
  | .vUnsupported _ _ => "<unsupported>"

def sprintList : List Value → List String
  | [] => []
  | v :: vs => sprintValue v :: sprintList vs

def sprintFields : List SField → List String
  | [] => []
  | f :: fs => sprintSField f :: sprintFields fs

def sprintSField : SField → String
  | .mk _ _ _ _ v => sprintValue v
end

/-- `stripParams`: delete the match of `\(.*\)$`, i.e. everything from
the first `(` onward when the token ends in a later `)`. -/
def stripParams (validatorString : String) : String :=
  let cs := validatorString.toList
  match cs.indexOf? '(' with
  | none => validatorString
  | some i =>
    if cs.getLast? = some ')' && i + 1 < cs.length then
      String.mk (cs.take i)
    else validatorString

/-- `%q` rendering of a tag name (escaping is not modelled; the names
quoted here contain no characters needing escapes). -/
def goQuote (s : String) : String :=
  "\"" ++ s ++ "\""

/-- The custom-typed validator pass of `validateField` (lines 870-884):
iterate the rule list, consume every rule registered in
`CustomTypeTagMap`, and collect an error for each failing predicate.
Negation is not interpreted: the lookup uses the raw rule token. -/
def customTypeLoop (cfg : Config) (v o : Value) (tname : String) :
    List String → GState → List ValError → List ValError × GState
  | [], st, acc => (acc, st)
  | tag :: rest, st, acc =>
    let customErrorMessage := lookupMsg st.msgs tag
    match cfg.customTypeTagMap tag with
    | none => customTypeLoop cfg v o tname rest st acc
    | some validatefunc =>
      let st := deleteTagAndMsg tag st
      if validatefunc v o then
        customTypeLoop cfg v o tname rest st acc
      else if customErrorMessage.length > 0 then
        customTypeLoop cfg v o tname rest st
          (acc ++ [{ name := tname, errMsg := customErrorMessage, custom := true, validator := stripParams tag }])
      else
        customTypeLoop cfg v o tname rest st
          (acc ++ [{ name := tname, errMsg := sprintValue v ++ " does not validate as " ++ tag,
                     custom := false, validator := stripParams tag }])

/-- One iteration of the `ParamTagRegexMap` loop (lines 937-971): if
the matcher fires on the (negation-stripped) rule token and the key has
a registered parameterized predicate, consume the rule and evaluate it
on the string rendering of the value, with negation; non-applicable
kinds produce an unsupported-kind error. -/
def paramRuleStep (cfg : Config) (v : Value) (t : SField)
    (tag validator customErrorMessage : String) (negate customMsgExists : Bool)
    (acc : Bool × Option ValError × GState)
    (kv : String × (String → Option (List String))) : Bool × Option ValError × GState :=
  let validResult := acc.1
  let err := acc.2.1
  let st := acc.2.2
  match kv.2 validator with
  | none => (validResult, err, st)
  | some ps =>
    match cfg.paramTagMap kv.1 with
    | none => (validResult, err, st)
    | some validatefunc =>
      let st := deleteTagAndMsg tag st
      match v with
      | .vString _ | .vInt _ | .vUint _ | .vFloat _ _ =>
        let field := sprintValue v
        let result := validatefunc field ps
        if (!result && !negate) || (result && negate) then
          if negate then
            (false, some { name := t.name, errMsg := field ++ " does validate as " ++ validator,
                           custom := customMsgExists, validator := stripParams tag }, st)
          else if customMsgExists then
            (false, some { name := t.name, errMsg := customErrorMessage,
                           custom := customMsgExists, validator := stripParams tag }, st)
          else
            (false, some { name := t.name, errMsg := field ++ " does not validate as " ++ validator,
                           custom := customMsgExists, validator := stripParams tag }, st)
        else (validResult, err, st)
      | _ =>
        (false, some { name := t.name,
                       errMsg := "Validator " ++ validator ++ " doesn't support kind " ++ kindName v,
                       custom := false, validator := stripParams tag }, st)

/-- The zero-parameter registry section of the built-in rule loop
(lines 973-994): consume the rule when `TagMap` has the
(negation-stripped) token, evaluate it on string-kind values with
negation; for any other kind the source's fresh `err :=` on line 991
shadows the outer `err`, so only `validResult` is cleared and no error
is recorded. -/
def zeroParamStep (cfg : Config) (v : Value) (t : SField)
    (tag validator customErrorMessage : String) (negate customMsgExists : Bool)
    (acc : Bool × Option ValError × GState) : Bool × Option ValError × GState :=
  let validResult := acc.1
  let err := acc.2.1
  let st := acc.2.2
  match cfg.tagMap validator with
  | none => (validResult, err, st)
  | some validatefunc =>
    let st := deleteTagAndMsg tag st
    match v with
    | .vString _ =>
      let field := sprintValue v
      let result := validatefunc field
      if (!result && !negate) || (result && negate) then
        if negate then
          (false, some { name := t.name, errMsg := field ++ " does validate as " ++ validator,
                         custom := customMsgExists, validator := stripParams tag }, st)
        else if customMsgExists then
          (false, some { name := t.name, errMsg := customErrorMessage,
                         custom := customMsgExists, validator := stripParams tag }, st)
        else
          (false, some { name := t.name, errMsg := field ++ " does not validate as " ++ validator,
                         custom := customMsgExists, validator := stripParams tag }, st)
      else (validResult, err, st)
    | _ => (false, err, st)

/-- The pipeline of one built-in rule iteration given the already
computed locals: the parameterized pass, the zero-parameter pass, then
the trailing per-iteration error append (lines 996-1002). -/
def processBuiltinTagCore (cfg : Config) (v : Value) (t : SField)
    (tag validator customErrorMessage : String) (negate customMsgExists : Bool)
    (validResult : Bool) (err firstErr : Option ValError) (st : GState) :
    Bool × Option ValError × Option ValError × GState :=
  let r := cfg.paramTagRegex.foldl
    (paramRuleStep cfg v t tag validator customErrorMessage negate customMsgExists)
    (validResult, err, st)
  let r2 := zeroParamStep cfg v t tag validator customErrorMessage negate customMsgExists r
  match r2.2.1 with
  | none => (r2.1, none, firstErr, r2.2.2)
  | some e =>
    let firstErr := if firstErr.isNone then some e else firstErr
    (r2.1, some e, firstErr, appendErrorsMap t.jsonTag (NewError (.err e)) r2.2.2)

/-- One iteration of the built-in rule loop of `validateField`
(lines 922-1002) for a scalar-kind value: read the custom message,
strip a leading `!`, then run the parameterized pass, the
zero-parameter pass and the trailing append. -/
def processBuiltinTag (cfg : Config) (v : Value) (t : SField) (tag : String)
    (validResult : Bool) (err firstErr : Option ValError) (st : GState) :
    Bool × Option ValError × Option ValError × GState :=
  let customErrorMessage := lookupMsg st.msgs tag
  let customMsgExists := customErrorMessage.length > 0
  -- tags produced by `parseTagIntoMap` are never empty, so `validator[0]`
  -- is well defined
  let negate := tag.toList.headD ' ' = '!'
  let validator := if negate then String.mk tag.toList.tail else tag
  processBuiltinTagCore cfg v t tag validator customErrorMessage negate customMsgExists
    validResult err firstErr st

/-- The built-in rule loop over the rule list captured at loop entry. -/
def builtinTagsLoop (cfg : Config) (v : Value) (t : SField) :
    List String → Bool → Option ValError → Option ValError → GState →
    Bool × Option ValError × Option ValError × GState
  | [], validResult, err, firstErr, st => (validResult, err, firstErr, st)
  | tag :: rest, validResult, err, firstErr, st =>
    let r := processBuiltinTag cfg v t tag validResult err firstErr st
    builtinTagsLoop cfg v t rest r.1 r.2.1 r.2.2.1 r.2.2.2

/-- The scalar-kind branch of `validateField` (lines 914-1009): run
the built-in rule loop over the captured rule list (with `validResult`
false and both `err` and `firstErr` holding any presence error), then
return the first error if one was recorded, else valid. -/
def scalarKindDispatch (cfg : Config) (v : Value) (t : SField)
    (presErr : Option ValError) (st : GState) : Bool × Option VErr × GState :=
  let r := builtinTagsLoop cfg v t st.tags false presErr presErr st
  let validResult := r.1
  let firstErr := r.2.2.1
  let st := r.2.2.2
  if !validResult && firstErr.isSome then
    (false, firstErr.map VErr.err, st)
  else (true, none, st)

/-- The deferred block of `validateField` (lines 898-911), run at root
invocations on every return path after line 912: drop the presence
directives from the leftover rule list, and if the result so far is
valid with no error but unconsumed rules remain, fail with an
invalid-validator error naming the first leftover rule. -/
def rootDeferCheck (t : SField) : Bool × Option VErr × GState → Bool × Option VErr × GState
  | (isValid, resultErr, st) =>
    let st := deleteTagAndMsg "optional" st
    let st := deleteTagAndMsg "required" st
    let st := deleteTagAndMsg "forbidden" st
    match st.tags with
    | [] => (isValid, resultErr, st)
    | v0 :: _ =>
      if isValid && resultErr.isNone then
        let e : ValError :=
          { name := t.name
            errMsg := "The following validator is invalid or can't be applied to the field: " ++ goQuote v0
            custom := false
            validator := stripParams v0 }
        (false, some (.err e), st)
      else (isValid, resultErr, st)

/-- Insertion of a map entry into a key-sorted list (`sort.Sort` over
`stringValues`). -/
def insertEntry (e : String × Value) : List (String × Value) → List (String × Value)
  | [] => [e]
  | x :: xs => if e.1 < x.1 then e :: x :: xs else x :: insertEntry e xs

def sortEntries : List (String × Value) → List (String × Value)
  | [] => []
  | e :: es => insertEntry e (sortEntries es)

/-- Is the field value a struct or a pointer to one (the condition for
the nested-record recursion of `validateStruct`, lines 773-774)? -/
def isStructCandidate : Value → Bool
  | .vStruct _ => true
  | .vPtr (some (.vStruct _)) => true
  | _ => false

/-- Rename the field name inside a returned error to the JSON alias
(`validateStruct` lines 786-802): `Error` and each element of an
`Errors` get the alias; other error shapes are unchanged. -/
def renameVErr (jsonTag : String) : VErr → VErr
  | .err e => .err { e with name := jsonTag }
  | .errs es => .errs (es.map fun e => { e with name := jsonTag })
  | e => e

/-! ### The recursive walker -/

mutual
/-- `validateStruct`: nil is vacuously valid; one pointer/interface
indirection is unwrapped; non-struct values fail hard; otherwise every
field is processed in declared order. -/
def validateStruct (cfg : Config) : Nat → Option Value → GState → Bool × Option VErr × GState
  | 0, _, st => (false, some .fuelOut, st)
  | _ + 1, none, st => (true, none, st)
  | n + 1, some s, st =>
    let val : Option Value :=
      match s with
      | .vPtr e => e
      | .vIface e => e
      | v => some v
    match val with
    | none =>
      -- Elem() of a nil pointer has kind Invalid
      (false, some (.plain "function only accepts structs; got invalid"), st)
    | some val =>
      match val with
      | .vStruct fields =>
        let r := structFieldsLoop cfg n fields (Value.vStruct fields) st true []
        (r.1, if r.2.1.length > 0 then some (.errs r.2.1) else none, r.2.2)
      | other => (false, some (.plain ("function only accepts structs; got " ++ kindName other)), st)

/-- The per-field loop of `validateStruct` (lines 761-808): skip
private fields; recurse into struct(-pointer) fields unless tagged
`-`; parse the field's tag into the globals; run `validateField` as a
root invocation; rename returned errors to the JSON alias; AND the
results. -/
def structFieldsLoop (cfg : Config) : Nat → List SField → Value → GState → Bool → List ValError → Bool × List ValError × GState
  | 0, _, _, st, _, errs => (false, errs, st)
  | _ + 1, [], _, st, result, errs => (result, errs, st)
  | n + 1, f :: rest, o, st, result, errs =>
    if f.pkgPath ≠ "" then
      structFieldsLoop cfg n rest o st result errs
    else
      let inner :=
        if f.validTag ≠ "-" && isStructCandidate f.value then
          let r := validateStruct cfg n (some f.value) st
          match r.2.1 with
          | some e => (r.1, errs ++ [NewError e], r.2.2)
          | none => (r.1, errs, r.2.2)
        else (true, errs, st)
      let structResult := inner.1
      let errs := inner.2.1
      let st := parseTagIntoMap f.validTag inner.2.2
      let rf := validateField cfg n f.value f o true st
      let resultField := rf.1
      let st := rf.2.2
      let errs :=
        match rf.2.1 with
        | none => errs
        | some e2 =>
          let jsonTag := toJSONName f.jsonTag
          let e2 := if jsonTag ≠ "" then renameVErr jsonTag e2 else e2
          errs ++ [NewError e2]
      structFieldsLoop cfg n rest o st (result && resultField && structResult) errs

/-- `validateField` (lines 818-1071): the `""`/`"-"` tag shortcuts, the
presence pass, the custom-typed pass, then dispatch on the value's
kind, with the deferred invalid-validator check applied at root
invocations to everything past line 912. -/
def validateField (cfg : Config) : Nat → Value → SField → Value → Bool → GState → Bool × Option VErr × GState
  | 0, _, _, _, _, st => (false, some .fuelOut, st)
  | n + 1, v, t, o, isRootType, st =>
    let tag := t.validTag
    let jsonTag := t.jsonTag
    if tag = "" then
      if !cfg.fieldsRequiredByDefault then (true, none, st)
      else
        let e : ValError :=
          { name := t.name
            errMsg := "All fields are required to at least have one validation defined"
            custom := false
            validator := "required" }
        (false, some (.err e), appendErrorsMap jsonTag e st)
    else if tag = "-" then (true, none, st)
    else
      -- presence pass (lines 843-868); `validResult` is false both
      -- initially and after a presence failure, so only the produced
      -- error needs threading
      let empty := isEmptyValue v
      let presEarly : Bool :=
        empty &&
          (let r := checkRequired t st.msgs cfg.fieldsRequiredByDefault
           r.1 && r.2.isNone && (lookupMsg? st.msgs "optional").isSome)
      if presEarly then (true, none, st)
      else
        let presErr : Option ValError :=
          if empty then
            let r := checkRequired t st.msgs cfg.fieldsRequiredByDefault
            if !r.1 && r.2.isSome then r.2 else none
          else
            let r := checkForbidden t st.msgs
            if !r.1 && r.2.isSome then r.2 else none
        let cu := customTypeLoop cfg v o t.name st.tags st []
        let customTypeErrors := cu.1
        let st := cu.2
        if customTypeErrors.length > 0 then
          let st := customTypeErrors.foldl (fun st e => appendErrorsMap jsonTag e st) st
          (false, some (.errs customTypeErrors), st)
        else
          let inner :=
            match v with
            | .vBool _ | .vInt _ | .vUint _ | .vUintptr _ | .vFloat _ _ | .vString _ =>
              scalarKindDispatch cfg v t presErr st
            | .vMapBadKey ty => (false, some (.unsupported ty), st)
            | .vMap entries => mapLoop cfg n (sortEntries entries) t o true st
            | .vSlice elems => sliceLoop cfg n elems t o true st
            | .vIface none => (true, none, st)
            | .vIface (some u) => validateStruct cfg n (some u) st
            | .vPtr none => (true, none, st)
            | .vPtr (some u) => validateField cfg n u t o false st
            | .vStruct _ => validateStruct cfg n (some v) st
            | .vUnsupported _ ty => (false, some (.unsupported ty), st)
          if isRootType then rootDeferCheck t inner else inner

/-- The slice/array element loop (lines 1036-1053): struct elements
recurse as records, others as non-root fields under the collection's
own metadata; any element error returns immediately. -/
def sliceLoop (cfg : Config) : Nat → List Value → SField → Value → Bool → GState → Bool × Option VErr × GState
  | 0, _, _, _, _, st => (false, some .fuelOut, st)
  | _ + 1, [], _, _, result, st => (result, none, st)
  | n + 1, e :: rest, t, o, result, st =>
    let r :=
      match e with
      | .vStruct _ => validateStruct cfg n (some e) st
      | _ => validateField cfg n e t o false st
    match r.2.1 with
    | some err => (false, some err, r.2.2)
    | none => sliceLoop cfg n rest t o (result && r.1) r.2.2

/-- The map-entry loop (lines 1017-1033), over entries pre-sorted by
key. -/
def mapLoop (cfg : Config) : Nat → List (String × Value) → SField → Value → Bool → GState → Bool × Option VErr × GState
  | 0, _, _, _, _, st => (false, some .fuelOut, st)
  | _ + 1, [], _, _, result, st => (result, none, st)
  | n + 1, kv :: rest, t, o, result, st =>
    let r :=
      match kv.2 with
      | .vStruct _ => validateStruct cfg n (some kv.2) st
      | _ => validateField cfg n kv.2 t o false st
    match r.2.1 with
    | some err => (false, some err, r.2.2)
    | none => mapLoop cfg n rest t o (result && r.1) r.2.2
end

/-- `Validate`: reinitialize the errors map, walk the value, dedupe,
and return the verdict with the report (the hard error from
`validateStruct` is discarded). -/
def Validate (cfg : Config) (fuel : Nat) (i : Option Value) (st : GState) :
    Bool × List (String × List (String × List String)) × GState :=
  let st := { st with errorsMap := some [] }
  let r := validateStruct cfg fuel i st
  let st := removeDuplicateErrors r.2.2
  (r.1, allErrors st, st)

/-! ### A concrete registry fragment

`TagMap`, `ParamTagMap` and `ParamTagRegexMap` live in the repository's
`types.go`, which is not among the sources at hand; the fragment below
is assembled from entries documented in `README.md`
(`"nonemptystring": IsNonEmptyString`, `"length(min|max)": ByteLength`)
with the leaf predicates translated from `validator.go`. -/

/-- `IsNonEmptyString` (validator.go line 129). -/
def IsNonEmptyString (str : String) : Bool :=
  goTrimBlanks str ≠ ""

/-- Modelled from the spec: `ToInt` of the package's converter file
(absent from the sources): parse a decimal integer with optional sign,
yielding 0 on failure. -/
def goToInt (s : String) : Int :=
  let digitsToNat := fun (ds : List Char) =>
    ds.foldl (fun (a : Nat) c => a * 10 + (c.toNat - 48)) 0
  match s.toList with
  | '-' :: ds =>
    if ds ≠ [] && ds.all Char.isDigit then -(digitsToNat ds : Int) else 0
  | '+' :: ds =>
    if ds ≠ [] && ds.all Char.isDigit then (digitsToNat ds : Int) else 0
  | ds =>
    if ds ≠ [] && ds.all Char.isDigit then (digitsToNat ds : Int) else 0

/-- `ByteLength` (validator.go lines 1195-1203). -/
def ByteLength (str : String) (params : List String) : Bool :=
  if params.length = 2 then
    let min := goToInt (params.headD "")
    let max := goToInt ((params.drop 1).headD "")
    (goStrLen str : Int) ≥ min && (goStrLen str : Int) ≤ max
  else false

/-- Modelled from the spec: the `ParamTagRegexMap` matcher for
`length(min|max)` (`^length\((\d+)\|(\d+)\)$` in the original
package): the two digit-string submatches. -/
def lengthMatcher (v : String) : Option (List String) :=
  let cs := v.toList
  if cs.take 7 = "length(".toList && cs.getLast? = some ')' then
    match goSplitChars '|' (cs.drop 7).dropLast with
    | [a, b] =>
      if a ≠ [] && a.all Char.isDigit && b ≠ [] && b.all Char.isDigit then
        some [String.mk a, String.mk b]
      else none
    | _ => none
  else none

/-- The registry fragment used by the concrete evaluations below, with
`fieldsRequiredByDefault` off and no custom-typed validators. -/
def modelCfg : Config where
  fieldsRequiredByDefault := false
  tagMap := fun n => if n = "nonemptystring" then some IsNonEmptyString else none
  paramTagMap := fun n => if n = "length" then some ByteLength else none
  paramTagRegex := [("length", lengthMatcher)]
  customTypeTagMap := fun _ => none

/-- An empty registry with `fieldsRequiredByDefault` off. -/
def emptyCfg : Config where
  fieldsRequiredByDefault := false
  tagMap := fun _ => none
  paramTagMap := fun _ => none
  paramTagRegex := []
  customTypeTagMap := fun _ => none

/-- The unconfigured global state: `errorsMap` still nil. -/
def gs0 : GState := { errorsMap := none, tags := [], msgs := [] }

/-- The global state right after `Validate` initializes the errors
map. -/
def gsInit : GState := { errorsMap := some [], tags := [], msgs := [] }

/-- The element dispatch of the slice/array and map loops
(lines 1040-1049): struct elements recurse as records, every other
element is validated as a non-root field under the collection's
metadata. -/
def elemValidate (cfg : Config) (fuel : Nat) (e : Value) (t : SField) (o : Value) (st : GState) :
    Bool × Option VErr × GState :=
  match e with
  | .vStruct _ => validateStruct cfg fuel (some e) st
  | _ => validateField cfg fuel e t o false st

/-- The kinds accepted by the inner switch of the parameterized-rule
branch (lines 950-954): string, the signed and the unsigned integer
kinds other than uintptr, and the float kinds. -/
def isParamScalarKind : Value → Bool
  | .vString _ => true
  | .vInt _ => true
  | .vUint _ => true
  | .vFloat _ _ => true
  | _ => false

/-- The scalar kinds accepted by the outer switch of the built-in
dispatch (lines 913-918): bool, the integer kinds including uintptr,
the float kinds and string. -/
def isScalarKind : Value → Bool
  | .vBool _ => true
  | .vInt _ => true
  | .vUint _ => true
  | .vUintptr _ => true
  | .vFloat _ _ => true
  | .vString _ => true
  | _ => false

/-- The single kind accepted by the inner switch of the zero-parameter
branch (line 977). -/
def isStringKind : Value → Bool
  | .vString _ => true
  | _ => false

/-! Concrete inputs used by the counterexamples and witnesses. -/

def exC1Field : SField := .mk "Name" "" "nonemptystring" "" (.vString "")

def exC1St : GState := parseTagIntoMap "nonemptystring" gsInit

def exC1OptField : SField := .mk "Name" "" "optional,nonemptystring" "" (.vString "")

def exC1OptSt : GState := parseTagIntoMap "optional,nonemptystring" gsInit

def exC2Inner1 : Value := .vStruct [.mk "A" "" "required" "a" (.vString "")]

def exC2Inner2 : Value := .vStruct [.mk "B" "" "required" "b" (.vString "")]

def exC2Outer : Value :=
  .vStruct [.mk "Items" "" "optional" ""
    (.vSlice [.vIface (some exC2Inner1), .vIface (some exC2Inner2)])]

def exC3Outer : Value :=
  .vStruct [.mk "Ch" "" "numeric" "" (.vUnsupported "chan" "chan int"),
            .mk "B" "" "required" "b" (.vString "")]

def exC4Struct : Value := .vStruct [.mk "Name" "" "required" "" (.vString "")]

def exC5Field : SField := .mk "F" "" "bogusone,bogustwo" "" (.vString "x")

def exC5St : GState := parseTagIntoMap "bogusone,bogustwo" gsInit

def exC8Cfg : Config :=
  { modelCfg with customTypeTagMap := fun n => if n = "customfail" then some (fun _ _ => false) else none }

/-- Like `exC8Cfg` but with a different built-in registry: used to
observe that built-in rules play no part once a custom-typed failure is
recorded. -/
def exC8CfgAlt : Config :=
  { exC8Cfg with tagMap := fun _ => none, paramTagMap := fun _ => none, paramTagRegex := [] }

def exC8Field : SField := .mk "G" "" "customfail,nonemptystring" "" (.vString "hello")

def exC8St : GState := parseTagIntoMap "customfail,nonemptystring" gsInit

def exC9Field : SField := .mk "B" "" "length(2|3)" "" (.vBool true)

def exC9St : GState :=
  { errorsMap := some [], tags := ["length(2|3)"], msgs := [("length(2|3)", "")] }

def exC9StN : GState :=
  { errorsMap := some [], tags := ["!length(2|3)"], msgs := [("!length(2|3)", "")] }

/-- A registry with one zero-parameter rule and nothing else, for the
zero-parameter half of the negation law. -/
def exC9ZeroCfg : Config :=
  { emptyCfg with tagMap := fun n => if n = "nonemptystring" then some IsNonEmptyString else none }

def exC9ZSt : GState :=
  { errorsMap := some [], tags := ["nonemptystring"], msgs := [("nonemptystring", "")] }

def exC9ZStN : GState :=
  { errorsMap := some [], tags := ["!nonemptystring"], msgs := [("!nonemptystring", "")] }

def exDashField : SField := .mk "A" "" "-" "" (.vString "x")

def exEmptyTagField : SField := .mk "A" "" "" "" (.vString "x")

def exPassStruct : Value := .vStruct [.mk "A" "" "-" "" (.vString "x")]

def exC3Field : SField := .mk "Ch" "" "numeric" "" (.vUnsupported "chan" "chan int")

def exC3St : GState := parseTagIntoMap "numeric" gsInit

def exC2SliceField : SField := .mk "Items" "" "required" "" (.vSlice [.vString ""])

def exC2SliceSt : GState := parseTagIntoMap "required" gsInit

/-! ### Theorems -/

/-- C10: `Validate` on a nil input returns `isValid = true` together
with the report mapping the fixed key `"errors"` to an empty mapping;
nil is vacuously valid rather than an unsupported-type failure. -/
theorem c10_validate_nil (cfg : Config) (fuel : Nat) (st : GState) :
    Validate cfg (fuel + 1) none st =
      (true, [("errors", [])],
        { errorsMap := some [], tags := st.tags, msgs := st.msgs }) := rfl

/-- C6: a field whose `valid` tag is empty is valid exactly when the
fields-required-by-default flag is off, and fails with a
required-validator error (also recorded in the report) when it is on;
the `"-"` tag passes unconditionally, for every value and independent
of the flag. -/
theorem c6_empty_and_dash_tags (cfg : Config) (fuel : Nat) (v : Value)
    (t : SField) (o : Value) (isRoot : Bool) (st : GState) :
    (t.validTag = "-" → validateField cfg (fuel + 1) v t o isRoot st = (true, none, st)) ∧
    (t.validTag = "" → cfg.fieldsRequiredByDefault = false →
      validateField cfg (fuel + 1) v t o isRoot st = (true, none, st)) ∧
    (t.validTag = "" → cfg.fieldsRequiredByDefault = true →
      validateField cfg (fuel + 1) v t o isRoot st =
        (false,
         some (.err { name := t.name
                      errMsg := "All fields are required to at least have one validation defined"
                      custom := false
                      validator := "required" }),
         appendErrorsMap t.jsonTag
           { name := t.name
             errMsg := "All fields are required to at least have one validation defined"
             custom := false
             validator := "required" } st)) := by
  refine ⟨fun h => ?_, fun h hf => ?_, fun h hf => ?_⟩
  · simp [validateField, h]
  · simp [validateField, h, hf]
  · simp [validateField, h, hf]

theorem c6_empty_and_dash_tags_witness :
    validateField emptyCfg 3 (.vString "x") exDashField (.vStruct []) true gs0 = (true, none, gs0) :=
  (c6_empty_and_dash_tags emptyCfg 2 (.vString "x") exDashField (.vStruct []) true gs0).1 rfl

/-- C1: refuted — an empty field with a content rule but no `optional`
directive does not skip content rules: the `nonemptystring` rule runs
on the empty string, fails, and `validateField` returns invalid with a
content-rule error recorded in the report. -/
theorem c1_counterexample :
    validateField modelCfg 5 (.vString "") exC1Field (.vStruct []) true exC1St =
      (false,
       some (.err { name := "Name"
                    errMsg := " does not validate as nonemptystring"
                    custom := false
                    validator := "nonemptystring" }),
       { errorsMap := some [("", ["does not validate as nonemptystring"])]
         tags := []
         msgs := [] }) := rfl

/-- C1 (amended): an empty field with no `required` directive skips all
content rules and is reported valid only when `optional` is declared;
in that case `validateField` returns `(true, nil)` with the global
state untouched, regardless of the declared content rules, the
registries and the default-required flag. -/
theorem c1_empty_optional_skips (cfg : Config) (fuel : Nat) (v : Value)
    (t : SField) (o : Value) (isRoot : Bool) (st : GState)
    (h1 : t.validTag ≠ "") (h2 : t.validTag ≠ "-")
    (h3 : isEmptyValue v = true)
    (h4 : lookupMsg? st.msgs "required" = none)
    (h5 : (lookupMsg? st.msgs "optional").isSome = true) :
    validateField cfg (fuel + 1) v t o isRoot st = (true, none, st) := by
  obtain ⟨a, ha⟩ := Option.isSome_iff_exists.mp h5
  simp [validateField, h1, h2, h3, checkRequired, h4, ha]

theorem c1_empty_optional_skips_witness :
    validateField modelCfg 5 (.vString "") exC1OptField (.vStruct []) true exC1OptSt =
      (true, none, exC1OptSt) :=
  c1_empty_optional_skips modelCfg 4 (.vString "") exC1OptField (.vStruct []) true exC1OptSt
    (by decide) (by decide) (by decide) (by decide) (by decide)

/-! Helper lemmas about the state-manipulation primitives. -/

theorem eraseFirst_of_notMem {a : String} :
    ∀ {l : List String}, a ∉ l → eraseFirst a l = l := by
  intro l h
  induction l with
  | nil => rfl
  | cons t ts ih =>
    simp only [List.mem_cons, not_or] at h
    have hne : ¬t = a := fun hc => h.1 hc.symm
    simp [eraseFirst, hne, ih h.2]

theorem mapDelete_of_notKey {k : String} :
    ∀ {m : List (String × String)}, (∀ p ∈ m, p.1 ≠ k) → mapDelete k m = m := by
  intro m h
  induction m with
  | nil => rfl
  | cons p ps ih =>
    simp only [List.mem_cons] at h
    simp [mapDelete, h p (Or.inl rfl), ih fun q hq => h q (Or.inr hq)]

theorem deleteTagAndMsg_of_absent {tag : String} {st : GState}
    (h1 : tag ∉ st.tags) (h2 : ∀ p ∈ st.msgs, p.1 ≠ tag) :
    deleteTagAndMsg tag st = st := by
  simp [deleteTagAndMsg, eraseFirst_of_notMem h1, mapDelete_of_notKey h2]

theorem customTypeLoop_of_unregistered (cfg : Config) (v o : Value) (tname : String) :
    ∀ (l : List String) (st : GState) (acc : List ValError),
      (∀ tg ∈ l, cfg.customTypeTagMap tg = none) →
      customTypeLoop cfg v o tname l st acc = (acc, st) := by
  intro l
  induction l with
  | nil => intro st acc _; rfl
  | cons tg ts ih =>
    intro st acc h
    simp only [List.mem_cons] at h
    simp [customTypeLoop, h tg (Or.inl rfl), ih st acc fun z hz => h z (Or.inr hz)]

theorem processBuiltinTag_of_unregistered (cfg : Config) (v : Value) (t : SField)
    (tag : String) (vr : Bool) (fe : Option ValError) (st : GState)
    (hreg : cfg.paramTagRegex = []) (htm : ∀ z, cfg.tagMap z = none) :
    processBuiltinTag cfg v t tag vr none fe st = (vr, none, fe, st) := by
  simp [processBuiltinTag, processBuiltinTagCore, zeroParamStep, hreg, htm]

theorem builtinTagsLoop_of_unregistered (cfg : Config) (v : Value) (t : SField)
    (hreg : cfg.paramTagRegex = []) (htm : ∀ z, cfg.tagMap z = none) :
    ∀ (l : List String) (vr : Bool) (fe : Option ValError) (st : GState),
      builtinTagsLoop cfg v t l vr none fe st = (vr, none, fe, st) := by
  intro l
  induction l with
  | nil => intro vr fe st; rfl
  | cons tg ts ih =>
    intro vr fe st
    simp [builtinTagsLoop, processBuiltinTag_of_unregistered cfg v t tg vr fe st hreg htm, ih]

theorem rootDeferCheck_of_invalid (t : SField) (e : Option VErr) (st : GState) :
    (rootDeferCheck t (false, e, st)).1 = false ∧ (rootDeferCheck t (false, e, st)).2.1 = e := by
  simp only [rootDeferCheck]
  split <;> simp

/-- C2: refuted — the slice walk stops at the first element whose
validation produces an error: with two failing record elements only the
first element's error (key `"a"`) reaches the report; the second
element (which would contribute key `"b"`) is never visited. -/
theorem c2_counterexample :
    Validate modelCfg 20 (some exC2Outer) gs0 =
      (false, [("errors", [("a", ["non zero value required"])])],
       { errorsMap := some [("a", ["non zero value required"])], tags := [], msgs := [] }) := rfl

/-- C2 (amended): the slice/array loop visits elements left to right
but returns `(false, err)` at the first element whose validation
(record validation for struct elements, non-root field validation
otherwise) returns an error `err`, leaving all later elements
unvisited; an element that produces no error contributes its boolean
result by logical AND and the walk continues. -/
theorem c2_slice_short_circuit :
    (∀ (cfg : Config) (n : Nat) (e : Value) (t : SField) (o : Value) (acc : Bool)
       (st : GState) (r : Bool) (err : VErr) (st' : GState),
      elemValidate cfg n e t o st = (r, some err, st') →
      ∀ rest, sliceLoop cfg (n + 1) (e :: rest) t o acc st = (false, some err, st')) ∧
    (∀ (cfg : Config) (n : Nat) (e : Value) (t : SField) (o : Value) (acc : Bool)
       (st : GState) (r : Bool) (st' : GState),
      elemValidate cfg n e t o st = (r, none, st') →
      ∀ rest, sliceLoop cfg (n + 1) (e :: rest) t o acc st =
        sliceLoop cfg n rest t o (acc && r) st') := by
  refine ⟨fun cfg n e t o acc st r err st' h rest => ?_,
          fun cfg n e t o acc st r st' h rest => ?_⟩ <;>
    cases e <;> simp only [elemValidate] at h <;> simp [sliceLoop, h]

theorem c2_slice_short_circuit_witness :
    sliceLoop modelCfg 6 [Value.vString "", Value.vString "zz"] exC2SliceField (.vStruct []) true exC2SliceSt =
      (false,
       some (.err { name := "Items", errMsg := "non zero value required", custom := false, validator := "required" }),
       { errorsMap := some [("", ["non zero value required"])]
         tags := ["required"]
         msgs := [("required", "")] }) :=
  c2_slice_short_circuit.1 modelCfg 5 (Value.vString "") exC2SliceField (.vStruct []) true
    exC2SliceSt false
    (.err { name := "Items", errMsg := "non zero value required", custom := false, validator := "required" })
    { errorsMap := some [("", ["non zero value required"])]
      tags := ["required"]
      msgs := [("required", "")] }
    rfl [Value.vString "zz"]

/-- C3: refuted — an unsupported-kind value does not make the overall
call fail hard with the originating error: the walk continues past the
unsupported field (the later field's `required` failure is collected
under key `"b"`), the overall call completes and returns the full
report, and the structural error itself is nowhere in the returned
value of `Validate`. -/
theorem c3_counterexample :
    Validate modelCfg 20 (some exC3Outer) gs0 =
      (false, [("errors", [("b", ["non zero value required"])])],
       { errorsMap := some [("b", ["non zero value required"])], tags := [], msgs := [] }) := rfl

/-- C3 (amended): a value of unsupported kind aborts validation of that
value only: `validateField` returns `false` with the
`UnsupportedTypeError` as its error (which the enclosing field loop
merely collects before moving on, and which `Validate` — whose return
value carries no error — drops from the report). -/
theorem c3_unsupported_aborts_value (cfg : Config) (fuel : Nat) (t : SField)
    (o : Value) (isRoot : Bool) (st : GState) (k ty : String)
    (h1 : t.validTag ≠ "") (h2 : t.validTag ≠ "-")
    (h3 : lookupMsg? st.msgs "optional" = none)
    (h4 : ∀ tg ∈ st.tags, cfg.customTypeTagMap tg = none) :
    (validateField cfg (fuel + 1) (.vUnsupported k ty) t o isRoot st).1 = false ∧
    (validateField cfg (fuel + 1) (.vUnsupported k ty) t o isRoot st).2.1 = some (.unsupported ty) := by
  have hcu := customTypeLoop_of_unregistered cfg (.vUnsupported k ty) o t.name st.tags st [] h4
  cases isRoot <;>
    simp [validateField, h1, h2, h3, hcu, rootDeferCheck_of_invalid]

/-- C4: refuted — `Validate` can return `isValid = false` together
with an empty report (a non-struct input produces only the discarded
hard error), and collected errors are keyed by the JSON alias alone:
with no `json` tag, a failing field is reported under the empty-string
key, not under its field name `"Name"`. -/
theorem c4_counterexample :
    (Validate modelCfg 5 (some (.vInt 5)) gs0 = (false, [("errors", [])], gsInit)) ∧
    (Validate modelCfg 10 (some exC4Struct) gs0 =
      (false, [("errors", [("", ["non zero value required"])])],
       { errorsMap := some [("", ["non zero value required"])], tags := [], msgs := [] })) :=
  ⟨rfl, rfl⟩

/-- C5: refuted — with two unconsumed rule names only the FIRST is
reported: the returned invalid-validator error names `bogusone` alone
(`bogustwo` appears nowhere), and the error is returned to the caller
but never added to the report map, which stays empty. -/
theorem c5_counterexample :
    validateField emptyCfg 5 (.vString "x") exC5Field (.vStruct []) true exC5St =
      (false,
       some (.err { name := "F"
                    errMsg := "The following validator is invalid or can't be applied to the field: \"bogusone\""
                    custom := false
                    validator := "bogusone" }),
       { errorsMap := some []
         tags := ["bogusone", "bogustwo"]
         msgs := [("bogusone", ""), ("bogustwo", "")] }) := rfl

/-- C5 (amended): at the end of a root invocation over a non-empty
scalar field whose rules match no registry entry and are not presence
directives, the rules are silently ignored during dispatch and exactly
one invalid-validator error is produced, naming only the first
unconsumed rule; the error is returned (not recorded in the report) and
the global state is left unchanged. -/
theorem c5_first_leftover_reported (cfg : Config) (fuel : Nat) (t : SField)
    (o : Value) (st : GState) (s x y : String)
    (h1 : t.validTag ≠ "") (h2 : t.validTag ≠ "-")
    (hs : isEmptyValue (.vString s) = false)
    (htags : st.tags = [x, y])
    (hmsgs : st.msgs = [(x, ""), (y, "")])
    (hxo : x ≠ "optional") (hxr : x ≠ "required") (hxf : x ≠ "forbidden")
    (hyo : y ≠ "optional") (hyr : y ≠ "required") (hyf : y ≠ "forbidden")
    (hreg : cfg.paramTagRegex = [])
    (htm : ∀ z, cfg.tagMap z = none)
    (hcu : ∀ z, cfg.customTypeTagMap z = none) :
    validateField cfg (fuel + 1) (.vString s) t o true st =
      (false,
       some (.err { name := t.name
                    errMsg := "The following validator is invalid or can't be applied to the field: " ++ goQuote x
                    custom := false
                    validator := stripParams x }),
       st) := by
  have hdel : ∀ tg, tg ≠ x → tg ≠ y → deleteTagAndMsg tg st = st := by
    intro tg hx hy
    apply deleteTagAndMsg_of_absent
    · rw [htags]; simp [hx, hy]
    · rw [hmsgs]
      intro p hp
      rcases List.mem_pair.mp hp with h | h <;> subst h
      · exact fun hc => hx hc.symm
      · exact fun hc => hy hc.symm
  have hforb : lookupMsg? st.msgs "forbidden" = none := by
    simp [lookupMsg?, hmsgs, List.find?, hxf, hyf]
  have hcf : checkForbidden t st.msgs = (true, none) := by
    simp [checkForbidden, hforb]
  have hcust2 : customTypeLoop cfg (.vString s) o t.name [x, y] st [] = ([], st) := by
    rw [← htags]
    exact customTypeLoop_of_unregistered cfg _ o t.name st.tags st [] (fun tg _ => hcu tg)
  have hloop2 : builtinTagsLoop cfg (.vString s) t [x, y] false none none st =
      (false, none, none, st) :=
    builtinTagsLoop_of_unregistered cfg _ t hreg htm [x, y] false none st
  have hskd : scalarKindDispatch cfg (.vString s) t none st = (true, none, st) := by
    simp [scalarKindDispatch, htags, hloop2]
  simp [validateField, h1, h2, hs, hcf, htags, hcust2, hskd, rootDeferCheck,
    hdel "optional" (Ne.symm hxo) (Ne.symm hyo),
    hdel "required" (Ne.symm hxr) (Ne.symm hyr),
    hdel "forbidden" (Ne.symm hxf) (Ne.symm hyf)]

theorem c5_first_leftover_reported_witness :
    validateField emptyCfg 5 (.vString "x") exC5Field (.vStruct []) true exC5St =
      (false,
       some (.err { name := "F"
                    errMsg := "The following validator is invalid or can't be applied to the field: " ++ goQuote "bogusone"
                    custom := false
                    validator := stripParams "bogusone" }),
       exC5St) :=
  c5_first_leftover_reported emptyCfg 4 exC5Field (.vStruct []) exC5St "x" "bogusone" "bogustwo"
    (by decide) (by decide) (by decide) (by decide) (by decide)
    (by decide) (by decide) (by decide) (by decide) (by decide) (by decide)
    rfl (fun z => rfl) (fun z => rfl)

theorem c3_unsupported_aborts_value_witness :
    (validateField modelCfg 5 (.vUnsupported "chan" "chan int") exC3Field (.vStruct []) true exC3St).1 = false ∧
    (validateField modelCfg 5 (.vUnsupported "chan" "chan int") exC3Field (.vStruct []) true exC3St).2.1 =
      some (.unsupported "chan int") :=
  c3_unsupported_aborts_value modelCfg 4 exC3Field (.vStruct []) true exC3St "chan" "chan int"
    (by decide) (by decide) (by decide) (fun tg _ => rfl)

theorem customTypeLoop_congr (cfg cfg' : Config) (v o : Value) (tname : String)
    (h : ∀ z, cfg'.customTypeTagMap z = cfg.customTypeTagMap z) :
    ∀ (l : List String) (st : GState) (acc : List ValError),
      customTypeLoop cfg' v o tname l st acc = customTypeLoop cfg v o tname l st acc := by
  intro l
  induction l with
  | nil => intro st acc; rfl
  | cons tg ts ih =>
    intro st acc
    simp only [customTypeLoop, h tg]
    cases cfg.customTypeTagMap tg with
    | none => exact ih st acc
    | some f =>
      simp only []
      split <;> [exact ih _ acc; split <;> exact ih _ _]

/-- C8: when any custom-typed predicate on a field fails (the field
being non-empty and annotated), `validateField` collects all
custom-typed failures, appends each to the report, and returns `false`
with exactly those errors, before any built-in dispatch: the outcome is
identical under any registry that agrees only on `CustomTypeTagMap`
(negation is not interpreted for custom-typed rules — the lookup uses
the raw token). -/
theorem c8_custom_failures_short_circuit (cfg cfg' : Config) (fuel : Nat)
    (v : Value) (t : SField) (o : Value) (isRoot : Bool) (st : GState)
    (es : List ValError) (st2 : GState)
    (h1 : t.validTag ≠ "") (h2 : t.validTag ≠ "-")
    (h3 : isEmptyValue v = false)
    (h4 : customTypeLoop cfg v o t.name st.tags st [] = (es, st2))
    (h5 : es ≠ [])
    (h6 : ∀ z, cfg'.customTypeTagMap z = cfg.customTypeTagMap z) :
    validateField cfg (fuel + 1) v t o isRoot st =
      (false, some (.errs es), es.foldl (fun acc e => appendErrorsMap t.jsonTag e acc) st2) ∧
    validateField cfg' (fuel + 1) v t o isRoot st =
      (false, some (.errs es), es.foldl (fun acc e => appendErrorsMap t.jsonTag e acc) st2) := by
  have h4' : customTypeLoop cfg' v o t.name st.tags st [] = (es, st2) :=
    (customTypeLoop_congr cfg cfg' v o t.name h6 st.tags st []).trans h4
  have hlen : 0 < es.length := List.length_pos.mpr h5
  constructor <;> simp [validateField, h1, h2, h3, h4, h4', hlen]

theorem c8_custom_failures_short_circuit_witness :
    validateField exC8Cfg 5 (.vString "hello") exC8Field (.vStruct []) true exC8St =
      (false,
       some (.errs [{ name := "G", errMsg := "hello does not validate as customfail",
                      custom := false, validator := "customfail" }]),
       [{ name := "G", errMsg := "hello does not validate as customfail",
          custom := false, validator := ("customfail" : String) }].foldl
         (fun acc e => appendErrorsMap exC8Field.jsonTag e acc)
         { errorsMap := some [], tags := ["nonemptystring"], msgs := [("nonemptystring", "")] }) ∧
    validateField exC8CfgAlt 5 (.vString "hello") exC8Field (.vStruct []) true exC8St =
      (false,
       some (.errs [{ name := "G", errMsg := "hello does not validate as customfail",
                      custom := false, validator := "customfail" }]),
       [{ name := "G", errMsg := "hello does not validate as customfail",
          custom := false, validator := ("customfail" : String) }].foldl
         (fun acc e => appendErrorsMap exC8Field.jsonTag e acc)
         { errorsMap := some [], tags := ["nonemptystring"], msgs := [("nonemptystring", "")] }) :=
  c8_custom_failures_short_circuit exC8Cfg exC8CfgAlt 4 (.vString "hello") exC8Field
    (.vStruct []) true exC8St
    [{ name := "G", errMsg := "hello does not validate as customfail",
       custom := false, validator := "customfail" }]
    { errorsMap := some [], tags := ["nonemptystring"], msgs := [("nonemptystring", "")] }
    (by decide) (by decide) (by decide) rfl (by decide) (fun z => rfl)

/-- C9: refuted twice over — for the parameterized rule `length(2|3)`
on the bool-kind value `true`, both the plain and the negated
invocation fail with an unsupported-kind error; and for the
zero-parameter rule `nonemptystring` on the same bool value, both the
plain and the negated invocation record no error at all (the fresh
`err :=` on line 991 shadows the outer `err`) and the field validates
as `true`.  In neither case is the pass/fail outcome the XOR of a
predicate result with the negation flag. -/
theorem c9_counterexample :
    (((processBuiltinTag modelCfg (.vBool true) exC9Field "length(2|3)" false none none exC9St).2.1.isSome = true) ∧
     ((processBuiltinTag modelCfg (.vBool true) exC9Field "!length(2|3)" false none none exC9StN).2.1.isSome = true)) ∧
    (((processBuiltinTag exC9ZeroCfg (.vBool true) exC9Field "nonemptystring" false none none exC9ZSt).2.1 = none) ∧
     ((processBuiltinTag exC9ZeroCfg (.vBool true) exC9Field "!nonemptystring" false none none exC9ZStN).2.1 = none) ∧
     ((validateField exC9ZeroCfg 3 (.vBool true) exC9Field (.vStruct []) true exC9ZSt).1 = true)) :=
  ⟨⟨rfl, rfl⟩, rfl, rfl, rfl⟩

/-- C9 (amended): the outcome of a rule depends on the kind-acceptance
of its dispatch path.  (1) A zero-parameter rule on a string-kind value
obeys the XOR law: `!X` produces an error exactly when `X` produces
none.  (2) A zero-parameter rule on any other accepted scalar kind
records no error for the plain and the negated invocation alike (the
unsupported-kind error is swallowed by the shadowed `err` of
line 991).  (3) A parameterized rule on the kinds its inner switch
accepts (string, int, uint, float) obeys the XOR law.  (4) A
parameterized rule on the remaining scalar kinds (bool, uintptr) fails
both the plain and the negated invocation with an unsupported-kind
error. -/
theorem c9_negation_law :
    (∀ (cfg : Config) (t : SField) (st : GState) (s x : String) (f : String → Bool),
      x ≠ "" → x.toList.headD ' ' ≠ '!' →
      cfg.paramTagRegex = [] → cfg.tagMap x = some f →
      (((processBuiltinTag cfg (.vString s) t x false none none st).2.1.isSome = true) ↔ f s = false) ∧
      (((processBuiltinTag cfg (.vString s) t ("!" ++ x) false none none st).2.1.isSome = true) ↔ f s = true)) ∧
    (∀ (cfg : Config) (t : SField) (st : GState) (v : Value) (x : String) (f : String → Bool),
      x ≠ "" → x.toList.headD ' ' ≠ '!' →
      cfg.paramTagRegex = [] → cfg.tagMap x = some f →
      isScalarKind v = true → isStringKind v = false →
      ((processBuiltinTag cfg v t x false none none st).2.1 = none ∧
       (processBuiltinTag cfg v t ("!" ++ x) false none none st).2.1 = none)) ∧
    (∀ (cfg : Config) (t : SField) (st : GState) (v : Value) (x key : String)
       (m : String → Option (List String)) (f : String → List String → Bool) (ps : List String),
      x ≠ "" → x.toList.headD ' ' ≠ '!' →
      cfg.paramTagRegex = [(key, m)] → m x = some ps →
      cfg.paramTagMap key = some f → cfg.tagMap x = none →
      isParamScalarKind v = true →
      (((processBuiltinTag cfg v t x false none none st).2.1.isSome = true) ↔ f (sprintValue v) ps = false) ∧
      (((processBuiltinTag cfg v t ("!" ++ x) false none none st).2.1.isSome = true) ↔ f (sprintValue v) ps = true)) ∧
    (∀ (cfg : Config) (t : SField) (st : GState) (v : Value) (x key : String)
       (m : String → Option (List String)) (f : String → List String → Bool) (ps : List String),
      x ≠ "" → x.toList.headD ' ' ≠ '!' →
      cfg.paramTagRegex = [(key, m)] → m x = some ps →
      cfg.paramTagMap key = some f → cfg.tagMap x = none →
      isScalarKind v = true → isParamScalarKind v = false →
      ((processBuiltinTag cfg v t x false none none st).2.1.isSome = true ∧
       (processBuiltinTag cfg v t ("!" ++ x) false none none st).2.1.isSome = true)) := by
  have hbang : ∀ y : String, ("!" ++ y).data = '!' :: y.data := by
    intro y
    simp [String.data_append]
  have hmk : ∀ y : String, String.mk y.data = y := fun _ => rfl
  refine ⟨?_, ?_, ?_, ?_⟩
  · intro cfg t st s x f hx hx2 hreg htm
    simp only [List.headD_eq_head?_getD, String.toList] at hx2
    constructor
    · cases hfs : f s <;>
        simp [processBuiltinTag, processBuiltinTagCore, zeroParamStep, hreg, hx2, htm, hfs, sprintValue] <;>
        split_ifs <;> simp
    · cases hfs : f s <;>
        simp [processBuiltinTag, processBuiltinTagCore, zeroParamStep, hreg, hbang, hmk, htm, hfs, sprintValue] <;>
        split_ifs <;> simp
  · intro cfg t st v x f hx hx2 hreg htm hsk hns
    simp only [List.headD_eq_head?_getD, String.toList] at hx2
    cases v <;>
      simp_all [processBuiltinTag, processBuiltinTagCore, zeroParamStep, hreg, hbang, hmk,
        isScalarKind, isStringKind]
  · intro cfg t st v x key m f ps hx hx2 hreg hm hpf htm hv
    simp only [List.headD_eq_head?_getD, String.toList] at hx2
    cases v <;> simp only [isParamScalarKind] at hv <;>
    constructor <;>
      cases hfs : f (sprintValue _) ps <;>
        simp_all [processBuiltinTag, processBuiltinTagCore, zeroParamStep, hreg, hbang, hmk, paramRuleStep, sprintValue] <;>
        split_ifs <;> simp_all
  · intro cfg t st v x key m f ps hx hx2 hreg hm hpf htm hsk hnp
    simp only [List.headD_eq_head?_getD, String.toList] at hx2
    cases v <;>
      simp_all [processBuiltinTag, processBuiltinTagCore, zeroParamStep, paramRuleStep, hreg,
        hbang, hmk, isScalarKind, isParamScalarKind]

theorem c9_negation_law_witness :
    (((processBuiltinTag exC9ZeroCfg (.vString "hi") exC9Field "nonemptystring" false none none gsInit).2.1.isSome = true) ↔
      IsNonEmptyString "hi" = false) ∧
    ((processBuiltinTag exC9ZeroCfg (.vBool false) exC9Field "nonemptystring" false none none gsInit).2.1 = none ∧
     (processBuiltinTag exC9ZeroCfg (.vBool false) exC9Field "!nonemptystring" false none none gsInit).2.1 = none) ∧
    (((processBuiltinTag modelCfg (.vString "abc") exC9Field "length(2|3)" false none none gsInit).2.1.isSome = true) ↔
      ByteLength "abc" ["2", "3"] = false) ∧
    ((processBuiltinTag modelCfg (.vUintptr 7) exC9Field "length(2|3)" false none none gsInit).2.1.isSome = true ∧
     (processBuiltinTag modelCfg (.vUintptr 7) exC9Field "!length(2|3)" false none none gsInit).2.1.isSome = true) :=
  ⟨(c9_negation_law.1 exC9ZeroCfg exC9Field gsInit "hi" "nonemptystring" IsNonEmptyString
      (by decide) (by decide) rfl rfl).1,
   c9_negation_law.2.1 exC9ZeroCfg exC9Field gsInit (.vBool false) "nonemptystring" IsNonEmptyString
      (by decide) (by decide) rfl rfl (by decide) (by decide),
   (c9_negation_law.2.2.1 modelCfg exC9Field gsInit (.vString "abc") "length(2|3)" "length"
      lengthMatcher ByteLength ["2", "3"]
      (by decide) (by decide) rfl (by decide) rfl rfl (by decide)).1,
   c9_negation_law.2.2.2 modelCfg exC9Field gsInit (.vUintptr 7) "length(2|3)" "length"
      lengthMatcher ByteLength ["2", "3"]
      (by decide) (by decide) rfl (by decide) rfl rfl (by decide) (by decide)⟩

/-! Helper lemmas for the invariant that a valid outcome leaves the
errors map untouched. -/

theorem deleteTagAndMsg_errorsMap (tag : String) (st : GState) :
    (deleteTagAndMsg tag st).errorsMap = st.errorsMap := rfl

theorem parseTagIntoMap_errorsMap (tag : String) (st : GState) :
    (parseTagIntoMap tag st).errorsMap = st.errorsMap := rfl

theorem paramRuleStep_errorsMap (cfg : Config) (v : Value) (t : SField)
    (tag validator cem : String) (negate cme : Bool)
    (acc : Bool × Option ValError × GState) (kv : String × (String → Option (List String))) :
    (paramRuleStep cfg v t tag validator cem negate cme acc kv).2.2.errorsMap = acc.2.2.errorsMap := by
  unfold paramRuleStep
  split
  · rfl
  · split
    · rfl
    · cases v <;> simp only [] <;> first | (split_ifs <;> rfl) | rfl

theorem paramFold_errorsMap (cfg : Config) (v : Value) (t : SField)
    (tag validator cem : String) (negate cme : Bool) :
    ∀ (l : List (String × (String → Option (List String)))) (acc : Bool × Option ValError × GState),
      ((l.foldl (paramRuleStep cfg v t tag validator cem negate cme) acc).2.2.errorsMap = acc.2.2.errorsMap) := by
  intro l
  induction l with
  | nil => intro acc; rfl
  | cons kv rest ih =>
    intro acc
    rw [List.foldl_cons, ih, paramRuleStep_errorsMap]

theorem paramRuleStep_validResult (cfg : Config) (v : Value) (t : SField)
    (tag validator cem : String) (negate cme : Bool)
    (acc : Bool × Option ValError × GState) (kv : String × (String → Option (List String)))
    (h : acc.1 = false) :
    (paramRuleStep cfg v t tag validator cem negate cme acc kv).1 = false := by
  unfold paramRuleStep
  split
  · exact h
  · split
    · exact h
    · cases v <;> simp only [] <;>
        first | (split_ifs <;> first | rfl | exact h) | rfl | exact h

theorem paramFold_validResult (cfg : Config) (v : Value) (t : SField)
    (tag validator cem : String) (negate cme : Bool) :
    ∀ (l : List (String × (String → Option (List String)))) (acc : Bool × Option ValError × GState),
      acc.1 = false →
      ((l.foldl (paramRuleStep cfg v t tag validator cem negate cme) acc).1 = false) := by
  intro l
  induction l with
  | nil => intro acc h; exact h
  | cons kv rest ih =>
    intro acc h
    rw [List.foldl_cons]
    exact ih _ (paramRuleStep_validResult cfg v t tag validator cem negate cme acc kv h)

theorem zeroParamStep_errorsMap (cfg : Config) (v : Value) (t : SField)
    (tag validator cem : String) (negate cme : Bool) (acc : Bool × Option ValError × GState) :
    (zeroParamStep cfg v t tag validator cem negate cme acc).2.2.errorsMap = acc.2.2.errorsMap := by
  unfold zeroParamStep
  split
  · rfl
  · cases v <;> simp only [] <;> first | (split_ifs <;> rfl) | rfl

theorem zeroParamStep_validResult (cfg : Config) (v : Value) (t : SField)
    (tag validator cem : String) (negate cme : Bool) (acc : Bool × Option ValError × GState)
    (h : acc.1 = false) :
    (zeroParamStep cfg v t tag validator cem negate cme acc).1 = false := by
  unfold zeroParamStep
  split
  · exact h
  · cases v <;> simp only [] <;>
      first | (split_ifs <;> first | rfl | exact h) | rfl | exact h

/-- If `processBuiltinTagCore` does not end with a recorded first
error, it recorded no error in this iteration either, the first error
was already absent, and the errors map is untouched. -/
theorem processBuiltinTagCore_none_facts (cfg : Config) (v : Value) (t : SField)
    (tag validator cem : String) (negate cme : Bool)
    (vr : Bool) (err fe : Option ValError) (st : GState)
    (h : (processBuiltinTagCore cfg v t tag validator cem negate cme vr err fe st).2.2.1 = none) :
    fe = none ∧
    (processBuiltinTagCore cfg v t tag validator cem negate cme vr err fe st).2.1 = none ∧
    (processBuiltinTagCore cfg v t tag validator cem negate cme vr err fe st).2.2.2.errorsMap = st.errorsMap := by
  revert h
  simp only [processBuiltinTagCore]
  have hm1 := paramFold_errorsMap cfg v t tag validator cem negate cme cfg.paramTagRegex (vr, err, st)
  generalize hfold :
    cfg.paramTagRegex.foldl (paramRuleStep cfg v t tag validator cem negate cme) (vr, err, st) = r
  rw [hfold] at hm1
  have hm2 := zeroParamStep_errorsMap cfg v t tag validator cem negate cme r
  generalize hz : zeroParamStep cfg v t tag validator cem negate cme r = r2
  rw [hz] at hm2
  cases hr2 : r2.2.1 with
  | none => intro hfe; exact ⟨hfe, rfl, by simp only []; rw [hm2, hm1]⟩
  | some e => cases fe <;> simp

theorem processBuiltinTag_none_facts (cfg : Config) (v : Value) (t : SField)
    (tag : String) (vr : Bool) (err fe : Option ValError) (st : GState)
    (h : (processBuiltinTag cfg v t tag vr err fe st).2.2.1 = none) :
    fe = none ∧
    (processBuiltinTag cfg v t tag vr err fe st).2.1 = none ∧
    (processBuiltinTag cfg v t tag vr err fe st).2.2.2.errorsMap = st.errorsMap := by
  simp only [processBuiltinTag] at h ⊢
  exact processBuiltinTagCore_none_facts cfg v t tag _ _ _ _ vr err fe st h

theorem processBuiltinTag_validResult (cfg : Config) (v : Value) (t : SField)
    (tag : String) (err fe : Option ValError) (st : GState) :
    (processBuiltinTag cfg v t tag false err fe st).1 = false := by
  simp only [processBuiltinTag, processBuiltinTagCore]
  have h1 := paramFold_validResult cfg v t tag
    (if tag.toList.headD ' ' = '!' then String.mk tag.toList.tail else tag)
    (lookupMsg st.msgs tag) (tag.toList.headD ' ' = '!') ((lookupMsg st.msgs tag).length > 0)
    cfg.paramTagRegex (false, err, st) rfl
  generalize hfold :
    cfg.paramTagRegex.foldl (paramRuleStep cfg v t tag
      (if tag.toList.headD ' ' = '!' then String.mk tag.toList.tail else tag)
      (lookupMsg st.msgs tag) (tag.toList.headD ' ' = '!')
      ((lookupMsg st.msgs tag).length > 0)) (false, err, st) = r
  rw [hfold] at h1
  have h2 := zeroParamStep_validResult cfg v t tag
    (if tag.toList.headD ' ' = '!' then String.mk tag.toList.tail else tag)
    (lookupMsg st.msgs tag) (tag.toList.headD ' ' = '!') ((lookupMsg st.msgs tag).length > 0) r h1
  generalize hz : zeroParamStep cfg v t tag
    (if tag.toList.headD ' ' = '!' then String.mk tag.toList.tail else tag)
    (lookupMsg st.msgs tag) (tag.toList.headD ' ' = '!')
    ((lookupMsg st.msgs tag).length > 0) r = r2
  rw [hz] at h2
  cases hr2 : r2.2.1 <;> simpa [hr2] using h2

theorem customTypeLoop_errorsMap (cfg : Config) (v o : Value) (tname : String) :
    ∀ (l : List String) (st : GState) (acc : List ValError),
      (customTypeLoop cfg v o tname l st acc).2.errorsMap = st.errorsMap := by
  intro l
  induction l with
  | nil => intro st acc; rfl
  | cons tg ts ih =>
    intro st acc
    unfold customTypeLoop
    cases cfg.customTypeTagMap tg with
    | none => exact ih st acc
    | some f =>
      simp only []
      split
      · rw [ih, deleteTagAndMsg_errorsMap]
      · split <;> rw [ih, deleteTagAndMsg_errorsMap]

theorem builtinTagsLoop_validResult (cfg : Config) (v : Value) (t : SField) :
    ∀ (l : List String) (err fe : Option ValError) (st : GState),
      (builtinTagsLoop cfg v t l false err fe st).1 = false := by
  intro l
  induction l with
  | nil => intro err fe st; rfl
  | cons tg ts ih =>
    intro err fe st
    rcases hp : processBuiltinTag cfg v t tg false err fe st with ⟨vr1, err1, fe1, st1⟩
    have hv1 : vr1 = false := by
      have := processBuiltinTag_validResult cfg v t tg err fe st
      rw [hp] at this
      exact this
    subst hv1
    simp only [builtinTagsLoop, hp]
    exact ih err1 fe1 st1

/-- If the built-in rule loop ends with no first error, no iteration
produced an error and the errors map is untouched. -/
theorem builtinTagsLoop_none_facts (cfg : Config) (v : Value) (t : SField) :
    ∀ (l : List String) (vr : Bool) (err fe : Option ValError) (st : GState),
      (builtinTagsLoop cfg v t l vr err fe st).2.2.1 = none →
      fe = none ∧ (builtinTagsLoop cfg v t l vr err fe st).2.2.2.errorsMap = st.errorsMap := by
  intro l
  induction l with
  | nil => intro vr err fe st h; exact ⟨h, rfl⟩
  | cons tg ts ih =>
    intro vr err fe st h
    rcases hp : processBuiltinTag cfg v t tg vr err fe st with ⟨vr1, err1, fe1, st1⟩
    simp only [builtinTagsLoop, hp] at h ⊢
    obtain ⟨hfe1, hst1⟩ := ih vr1 err1 fe1 st1 h
    have hfacts := processBuiltinTag_none_facts cfg v t tg vr err fe st (by rw [hp]; exact hfe1)
    rw [hp] at hfacts
    exact ⟨hfacts.1, hst1.trans hfacts.2.2⟩

theorem rootDeferCheck_errorsMap (t : SField) (b : Bool) (e : Option VErr) (st : GState) :
    (rootDeferCheck t (b, e, st)).2.2.errorsMap = st.errorsMap := by
  simp only [rootDeferCheck]
  split <;> first | (split_ifs <;> rfl) | rfl

theorem rootDeferCheck_true (t : SField) (b : Bool) (e : Option VErr) (st : GState)
    (h : (rootDeferCheck t (b, e, st)).1 = true) :
    b = true ∧ (rootDeferCheck t (b, e, st)).2.1 = e := by
  revert h
  simp only [rootDeferCheck]
  split
  · exact fun h => ⟨h, rfl⟩
  · split_ifs with hc
    · simp
    · exact fun h => ⟨h, rfl⟩

/-- What a root invocation's deferred check preserves when the final
result is valid. -/
theorem rootWrap_true (t : SField) (inner : Bool × Option VErr × GState) (root : Bool)
    (h : (if root then rootDeferCheck t inner else inner).1 = true) :
    inner.1 = true ∧
    (if root then rootDeferCheck t inner else inner).2.1 = inner.2.1 ∧
    (if root then rootDeferCheck t inner else inner).2.2.errorsMap = inner.2.2.errorsMap := by
  cases root with
  | false => exact ⟨h, rfl, rfl⟩
  | true =>
    simp only [if_true] at h ⊢
    rcases inner with ⟨b, e, st⟩
    obtain ⟨hb, he⟩ := rootDeferCheck_true t b e st h
    exact ⟨hb, he, rootDeferCheck_errorsMap t b e st⟩

theorem andSplit {a b : Bool} (h : (a && b) = true) : a = true ∧ b = true := by
  cases a <;> cases b <;> simp_all

theorem scalarKindDispatch_true (cfg : Config) (v : Value) (t : SField)
    (p : Option ValError) (st : GState)
    (h : (scalarKindDispatch cfg v t p st).1 = true) :
    (scalarKindDispatch cfg v t p st).2.1 = none ∧
    (scalarKindDispatch cfg v t p st).2.2.errorsMap = st.errorsMap := by
  revert h
  rcases hbl : builtinTagsLoop cfg v t st.tags false p p st with ⟨vr, er, fe, st3⟩
  have hvr : vr = false := by
    have hh := builtinTagsLoop_validResult cfg v t st.tags p p st
    rw [hbl] at hh; exact hh
  subst hvr
  simp only [scalarKindDispatch, hbl]
  cases fe with
  | some e => simp
  | none =>
    intro _
    have hf := builtinTagsLoop_none_facts cfg v t st.tags false p p st (by rw [hbl])
    rw [hbl] at hf
    exact ⟨rfl, hf.2⟩

/-- The joint walker invariant: a valid outcome comes with no returned
error (no accumulated errors for the field loop) and an untouched
errors map, and a valid loop outcome implies a valid accumulator. -/
theorem walkerValidLeavesErrors : ∀ n : Nat,
    (∀ (cfg : Config) (v : Value) (t : SField) (o : Value) (root : Bool) (st : GState),
      (validateField cfg n v t o root st).1 = true →
      (validateField cfg n v t o root st).2.1 = none ∧
      (validateField cfg n v t o root st).2.2.errorsMap = st.errorsMap) ∧
    (∀ (cfg : Config) (s : Option Value) (st : GState),
      (validateStruct cfg n s st).1 = true →
      (validateStruct cfg n s st).2.1 = none ∧
      (validateStruct cfg n s st).2.2.errorsMap = st.errorsMap) ∧
    (∀ (cfg : Config) (fs : List SField) (o : Value) (st : GState) (res : Bool) (errs : List ValError),
      (structFieldsLoop cfg n fs o st res errs).1 = true →
      res = true ∧ (structFieldsLoop cfg n fs o st res errs).2.1 = errs ∧
      (structFieldsLoop cfg n fs o st res errs).2.2.errorsMap = st.errorsMap) ∧
    (∀ (cfg : Config) (es : List Value) (t : SField) (o : Value) (res : Bool) (st : GState),
      (sliceLoop cfg n es t o res st).1 = true →
      res = true ∧ (sliceLoop cfg n es t o res st).2.1 = none ∧
      (sliceLoop cfg n es t o res st).2.2.errorsMap = st.errorsMap) ∧
    (∀ (cfg : Config) (es : List (String × Value)) (t : SField) (o : Value) (res : Bool) (st : GState),
      (mapLoop cfg n es t o res st).1 = true →
      res = true ∧ (mapLoop cfg n es t o res st).2.1 = none ∧
      (mapLoop cfg n es t o res st).2.2.errorsMap = st.errorsMap) := by
  intro n
  induction n with
  | zero =>
    refine ⟨fun cfg v t o root st h => ?_, fun cfg s st h => ?_,
            fun cfg fs o st res errs h => ?_, fun cfg es t o res st h => ?_,
            fun cfg es t o res st h => ?_⟩
    · simp [validateField] at h
    · simp [validateStruct] at h
    · simp [structFieldsLoop] at h
    · simp [sliceLoop] at h
    · simp [mapLoop] at h
  | succ n ih =>
    obtain ⟨ihVF, ihVS, ihSFL, ihSL, ihML⟩ := ih
    have elemFact : ∀ (cfg : Config) (e : Value) (t : SField) (o : Value) (st : GState),
        (elemValidate cfg n e t o st).1 = true →
        (elemValidate cfg n e t o st).2.1 = none ∧
        (elemValidate cfg n e t o st).2.2.errorsMap = st.errorsMap := by
      intro cfg e t o st h
      cases e <;> simp only [elemValidate] at h ⊢ <;>
        first
        | exact ihVS _ _ _ h
        | exact ihVF _ _ _ _ _ _ h
    have elemEq : ∀ (cfg : Config) (e : Value) (rest : List Value) (t : SField) (o : Value) (res : Bool) (st : GState),
        sliceLoop cfg (n + 1) (e :: rest) t o res st =
          (match (elemValidate cfg n e t o st).2.1 with
           | some err => (false, some err, (elemValidate cfg n e t o st).2.2)
           | none => sliceLoop cfg n rest t o (res && (elemValidate cfg n e t o st).1)
               (elemValidate cfg n e t o st).2.2) := by
      intro cfg e rest t o res st
      cases e <;> rfl
    have mapEq : ∀ (cfg : Config) (kv : String × Value) (rest : List (String × Value)) (t : SField) (o : Value) (res : Bool) (st : GState),
        mapLoop cfg (n + 1) (kv :: rest) t o res st =
          (match (elemValidate cfg n kv.2 t o st).2.1 with
           | some err => (false, some err, (elemValidate cfg n kv.2 t o st).2.2)
           | none => mapLoop cfg n rest t o (res && (elemValidate cfg n kv.2 t o st).1)
               (elemValidate cfg n kv.2 t o st).2.2) := by
      intro cfg kv rest t o res st
      rcases kv with ⟨k, v⟩
      cases v <;> rfl
    refine ⟨?_, ?_, ?_, ?_, ?_⟩
    -- validateField
    · intro cfg v t o root st h
      by_cases htag : t.validTag = ""
      · by_cases hfr : cfg.fieldsRequiredByDefault
        · simp [validateField, htag, hfr] at h
        · simp [validateField, htag, hfr]
      · by_cases hdash : t.validTag = "-"
        · simp [validateField, htag, hdash]
        · revert h
          simp only [validateField]
          rw [if_neg htag, if_neg hdash]
          split
          · intro _; exact ⟨rfl, rfl⟩
          · rcases hcu : customTypeLoop cfg v o t.name st.tags st [] with ⟨es, st2⟩
            have hst2 : st2.errorsMap = st.errorsMap := by
              have hh := customTypeLoop_errorsMap cfg v o t.name st.tags st []
              rw [hcu] at hh; exact hh
            simp only []
            split
            · intro h; simp at h
            · intro h
              obtain ⟨hin, he, hm⟩ := rootWrap_true t _ root h
              rw [he, hm]
              cases v with
              | vBool b =>
                obtain ⟨h1, h2⟩ := scalarKindDispatch_true cfg (.vBool b) t _ st2 hin
                exact ⟨h1, h2.trans hst2⟩
              | vInt m =>
                obtain ⟨h1, h2⟩ := scalarKindDispatch_true cfg (.vInt m) t _ st2 hin
                exact ⟨h1, h2.trans hst2⟩
              | vUint m =>
                obtain ⟨h1, h2⟩ := scalarKindDispatch_true cfg (.vUint m) t _ st2 hin
                exact ⟨h1, h2.trans hst2⟩
              | vUintptr m =>
                obtain ⟨h1, h2⟩ := scalarKindDispatch_true cfg (.vUintptr m) t _ st2 hin
                exact ⟨h1, h2.trans hst2⟩
              | vFloat r z =>
                obtain ⟨h1, h2⟩ := scalarKindDispatch_true cfg (.vFloat r z) t _ st2 hin
                exact ⟨h1, h2.trans hst2⟩
              | vString s2 =>
                obtain ⟨h1, h2⟩ := scalarKindDispatch_true cfg (.vString s2) t _ st2 hin
                exact ⟨h1, h2.trans hst2⟩
              | vMapBadKey ty => simp at hin
              | vMap entries =>
                obtain ⟨-, h1, h2⟩ := ihML cfg (sortEntries entries) t o true st2 hin
                exact ⟨h1, h2.trans hst2⟩
              | vSlice elems =>
                obtain ⟨-, h1, h2⟩ := ihSL cfg elems t o true st2 hin
                exact ⟨h1, h2.trans hst2⟩
              | vIface e =>
                cases e with
                | none => exact ⟨rfl, hst2⟩
                | some u =>
                  obtain ⟨h1, h2⟩ := ihVS cfg (some u) st2 hin
                  exact ⟨h1, h2.trans hst2⟩
              | vPtr e =>
                cases e with
                | none => exact ⟨rfl, hst2⟩
                | some u =>
                  obtain ⟨h1, h2⟩ := ihVF cfg u t o false st2 hin
                  exact ⟨h1, h2.trans hst2⟩
              | vStruct fields =>
                obtain ⟨h1, h2⟩ := ihVS cfg (some (.vStruct fields)) st2 hin
                exact ⟨h1, h2.trans hst2⟩
              | vUnsupported k ty => simp at hin
    -- validateStruct
    · intro cfg s st h
      cases s with
      | none => exact ⟨rfl, rfl⟩
      | some v =>
        have hmain : ∀ (fields : List SField) (st' : GState),
            (validateStruct cfg (n + 1) (some (.vStruct fields)) st').1 = true →
            (validateStruct cfg (n + 1) (some (.vStruct fields)) st').2.1 = none ∧
            (validateStruct cfg (n + 1) (some (.vStruct fields)) st').2.2.errorsMap = st'.errorsMap := by
          intro fields st' h'
          revert h'
          simp only [validateStruct]
          rcases hr : structFieldsLoop cfg n fields (.vStruct fields) st' true [] with ⟨rb, rerrs, rst⟩
          simp only []
          intro h'
          obtain ⟨-, herrs, hmap⟩ := ihSFL cfg fields (.vStruct fields) st' true [] (by rw [hr]; exact h')
          rw [hr] at herrs hmap
          simp only [] at herrs hmap
          subst herrs
          exact ⟨by simp, hmap⟩
        cases v with
        | vStruct fields => exact hmain fields st h
        | vPtr e =>
          cases e with
          | none => simp [validateStruct] at h
          | some u => cases u <;> first | exact hmain _ st h | simp [validateStruct] at h
        | vIface e =>
          cases e with
          | none => simp [validateStruct] at h
          | some u => cases u <;> first | exact hmain _ st h | simp [validateStruct] at h
        | vBool b => simp [validateStruct] at h
        | vInt m => simp [validateStruct] at h
        | vUint m => simp [validateStruct] at h
        | vUintptr m => simp [validateStruct] at h
        | vFloat r z => simp [validateStruct] at h
        | vString s2 => simp [validateStruct] at h
        | vSlice es2 => simp [validateStruct] at h
        | vMap es2 => simp [validateStruct] at h
        | vMapBadKey ty => simp [validateStruct] at h
        | vUnsupported k ty => simp [validateStruct] at h
    -- structFieldsLoop
    · intro cfg fs o st res errs h
      cases fs with
      | nil => exact ⟨h, rfl, rfl⟩
      | cons f rest =>
        revert h
        simp only [structFieldsLoop]
        by_cases hpk : f.pkgPath ≠ ""
        · rw [if_pos hpk]
          intro h
          exact ihSFL cfg rest o st res errs h
        · rw [if_neg hpk]
          split
          · -- nested struct pre-validation
            rcases hvs : validateStruct cfg n (some f.value) st with ⟨sr, serr, sst⟩
            simp only []
            cases serr with
            | some e0 =>
              simp only []
              rcases hvf : validateField cfg n f.value f o true (parseTagIntoMap f.validTag sst) with ⟨rf, rerr, st3⟩
              simp only []
              cases rerr with
              | some e2 =>
                simp only []
                intro h
                obtain ⟨hres3, -, -⟩ := ihSFL cfg rest o st3 (res && rf && sr) _ h
                obtain ⟨-, hsr⟩ := andSplit hres3
                have hcontra := (ihVS cfg (some f.value) st (by rw [hvs]; exact hsr)).1
                rw [hvs] at hcontra
                simp at hcontra
              | none =>
                intro h
                obtain ⟨hres3, -, -⟩ := ihSFL cfg rest o st3 (res && rf && sr) _ h
                obtain ⟨-, hsr⟩ := andSplit hres3
                have hcontra := (ihVS cfg (some f.value) st (by rw [hvs]; exact hsr)).1
                rw [hvs] at hcontra
                simp at hcontra
            | none =>
              simp only []
              rcases hvf : validateField cfg n f.value f o true (parseTagIntoMap f.validTag sst) with ⟨rf, rerr, st3⟩
              simp only []
              cases rerr with
              | some e2 =>
                simp only []
                intro h
                obtain ⟨hres3, -, -⟩ := ihSFL cfg rest o st3 (res && rf && sr) _ h
                obtain ⟨hand, -⟩ := andSplit hres3
                obtain ⟨-, hrf⟩ := andSplit hand
                have hcontra := (ihVF cfg f.value f o true (parseTagIntoMap f.validTag sst) (by rw [hvf]; exact hrf)).1
                rw [hvf] at hcontra
                simp at hcontra
              | none =>
                intro h
                obtain ⟨hres3, herrs3, hmap3⟩ := ihSFL cfg rest o st3 (res && rf && sr) errs h
                obtain ⟨hand, hsr⟩ := andSplit hres3
                obtain ⟨hres, hrf⟩ := andSplit hand
                have hvfm := (ihVF cfg f.value f o true (parseTagIntoMap f.validTag sst) (by rw [hvf]; exact hrf)).2
                rw [hvf] at hvfm
                simp only [] at hvfm
                have hvsm := (ihVS cfg (some f.value) st (by rw [hvs]; exact hsr)).2
                rw [hvs] at hvsm
                simp only [] at hvsm
                refine ⟨hres, herrs3, ?_⟩
                rw [hmap3, hvfm, parseTagIntoMap_errorsMap, hvsm]
          · -- no nested recursion
            rcases hvf : validateField cfg n f.value f o true (parseTagIntoMap f.validTag st) with ⟨rf, rerr, st3⟩
            simp only []
            cases rerr with
            | some e2 =>
              simp only []
              intro h
              obtain ⟨hres3, -, -⟩ := ihSFL cfg rest o st3 (res && rf && true) _ h
              obtain ⟨hand, -⟩ := andSplit hres3
              obtain ⟨-, hrf⟩ := andSplit hand
              have hcontra := (ihVF cfg f.value f o true (parseTagIntoMap f.validTag st) (by rw [hvf]; exact hrf)).1
              rw [hvf] at hcontra
              simp at hcontra
            | none =>
              intro h
              obtain ⟨hres3, herrs3, hmap3⟩ := ihSFL cfg rest o st3 (res && rf && true) errs h
              obtain ⟨hand, -⟩ := andSplit hres3
              obtain ⟨hres, hrf⟩ := andSplit hand
              have hvfm := (ihVF cfg f.value f o true (parseTagIntoMap f.validTag st) (by rw [hvf]; exact hrf)).2
              rw [hvf] at hvfm
              simp only [] at hvfm
              refine ⟨hres, herrs3, ?_⟩
              rw [hmap3, hvfm, parseTagIntoMap_errorsMap]
    -- sliceLoop
    · intro cfg es t o res st h
      cases es with
      | nil => exact ⟨h, rfl, rfl⟩
      | cons e rest =>
        rw [elemEq] at h ⊢
        rcases hr : elemValidate cfg n e t o st with ⟨rb, rerr, rst⟩
        rw [hr] at h
        cases rerr with
        | some err => exact absurd h (by simp)
        | none =>
          obtain ⟨hres, h1, h2⟩ := ihSL cfg rest t o (res && rb) rst h
          obtain ⟨hres1, hrb⟩ := andSplit hres
          have hef := elemFact cfg e t o st (by rw [hr]; exact hrb)
          rw [hr] at hef
          exact ⟨hres1, h1, h2.trans hef.2⟩
    -- mapLoop
    · intro cfg es t o res st h
      cases es with
      | nil => exact ⟨h, rfl, rfl⟩
      | cons kv rest =>
        rw [mapEq] at h ⊢
        rcases hr : elemValidate cfg n kv.2 t o st with ⟨rb, rerr, rst⟩
        rw [hr] at h
        cases rerr with
        | some err => exact absurd h (by simp)
        | none =>
          obtain ⟨hres, h1, h2⟩ := ihML cfg rest t o (res && rb) rst h
          obtain ⟨hres1, hrb⟩ := andSplit hres
          have hef := elemFact cfg kv.2 t o st (by rw [hr]; exact hrb)
          rw [hr] at hef
          exact ⟨hres1, h1, h2.trans hef.2⟩

/-- The fold underlying `removeDuplicates` keeps the accumulated prefix,
appends a sublist of the remaining input, never produces duplicates, and
has exactly the members of the accumulator and the input, provided the
kept prefix and the `found` set agree. -/
theorem dedup_aux (xs : List String) :
    ∀ acc : List String × List String,
      (∀ a, a ∈ acc.1 ↔ a ∈ acc.2) → acc.1.Nodup →
      (xs.foldl dedupStep acc).1.Nodup ∧
      (∃ ys, (xs.foldl dedupStep acc).1 = acc.1 ++ ys ∧ ys.Sublist xs) ∧
      (∀ a, a ∈ (xs.foldl dedupStep acc).1 ↔ a ∈ acc.1 ∨ a ∈ xs) := by
  induction xs with
  | nil =>
    intro acc hmem hnd
    exact ⟨hnd, ⟨[], by simp, List.nil_sublist _⟩, by simp⟩
  | cons x xs ih =>
    intro acc hmem hnd
    rw [List.foldl_cons]
    by_cases hc : acc.2.contains x = true
    · have hx2 : x ∈ acc.2 := by simpa using hc
      have hstep : dedupStep acc x = acc := by simp [dedupStep, hx2]
      rw [hstep]
      obtain ⟨h1, ⟨ys, hys, hsub⟩, h3⟩ := ih acc hmem hnd
      refine ⟨h1, ⟨ys, hys, hsub.cons _⟩, fun a => ?_⟩
      rw [h3 a]
      constructor
      · rintro (ha | ha)
        · exact Or.inl ha
        · exact Or.inr (List.mem_cons_of_mem _ ha)
      · rintro (ha | ha)
        · exact Or.inl ha
        · rcases List.mem_cons.mp ha with rfl | ha
          · exact Or.inl ((hmem a).mpr hx2)
          · exact Or.inr ha
    · have hx2 : x ∉ acc.2 := by simpa using hc
      have hstep : dedupStep acc x = (acc.1 ++ [x], x :: acc.2) := by
        simp [dedupStep, hx2]
      rw [hstep]
      have hx1 : x ∉ acc.1 := fun hx => hx2 ((hmem x).mp hx)
      have hmem' : ∀ a, a ∈ acc.1 ++ [x] ↔ a ∈ x :: acc.2 := by
        intro a
        simp only [List.mem_append, List.mem_singleton, List.mem_cons, hmem a]
        tauto
      have hnd' : (acc.1 ++ [x]).Nodup := by
        simp [List.nodup_append, hnd, hx1]
      obtain ⟨h1, ⟨ys, hys, hsub⟩, h3⟩ := ih (acc.1 ++ [x], x :: acc.2) hmem' hnd'
      refine ⟨h1, ⟨x :: ys, ?_, hsub.cons₂ x⟩, fun a => ?_⟩
      · rw [hys]; simp
      · rw [h3 a]
        simp only [List.mem_append, List.mem_singleton, List.mem_cons]
        tauto

/-- `removeDuplicates` returns a duplicate-free sublist of its input
with exactly the same members (a sublist preserves the relative, hence
first-occurrence, order of the survivors). -/
theorem removeDuplicates_spec (xs : List String) :
    (removeDuplicates xs).Nodup ∧ (removeDuplicates xs).Sublist xs ∧
    (∀ a, a ∈ removeDuplicates xs ↔ a ∈ xs) := by
  obtain ⟨h1, ⟨ys, hys, hsub⟩, h3⟩ := dedup_aux xs ([], []) (by simp) List.nodup_nil
  simp only [removeDuplicates]
  refine ⟨h1, ?_, fun a => ?_⟩
  · rw [hys, List.nil_append]; exact hsub
  · rw [h3 a]; simp

/-- C4 (amended): whenever `Validate` returns `isValid = true`, the
report is empty (the fixed key `"errors"` maps to the empty mapping): a
valid walk never writes to the freshly initialized errors map. -/
theorem c4_valid_implies_empty_report (cfg : Config) (fuel : Nat)
    (inp : Option Value) (st : GState)
    (h : (Validate cfg fuel inp st).1 = true) :
    (Validate cfg fuel inp st).2.1 = [("errors", [])] := by
  simp only [Validate] at h ⊢
  have hvs := (walkerValidLeavesErrors fuel).2.1 cfg inp { st with errorsMap := some [] }
  rcases hr : validateStruct cfg fuel inp { st with errorsMap := some [] } with ⟨b, e, st2⟩
  rw [hr] at h hvs
  obtain ⟨-, hmap⟩ := hvs h
  simp only at hmap
  simp [removeDuplicateErrors, allErrors, hmap]

/-- Witness for `c4_valid_implies_empty_report`: a passing struct. -/
theorem c4_valid_implies_empty_report_witness :
    (Validate modelCfg 5 (some exPassStruct) gs0).1 = true ∧
    (Validate modelCfg 5 (some exPassStruct) gs0).2.1 = [("errors", [])] :=
  ⟨rfl, c4_valid_implies_empty_report modelCfg 5 (some exPassStruct) gs0 rfl⟩

/-- C7: every per-field message list in a report returned by `Validate`
is duplicate-free; the result of `Validate` does not depend on the
errors map held in the incoming state (it is reinitialized to the empty
mapping before the walk, so nothing leaks across calls); and
`removeDuplicates` keeps a sublist of its input with the same members,
preserving first-occurrence order of the surviving messages. -/
theorem c7_report_dedup_and_fresh :
    (∀ (cfg : Config) (fuel : Nat) (inp : Option Value) (st : GState)
       (p : String × List (String × List String)),
       p ∈ (Validate cfg fuel inp st).2.1 → ∀ q ∈ p.2, q.2.Nodup) ∧
    (∀ (cfg : Config) (fuel : Nat) (inp : Option Value) (st : GState)
       (em : Option (List (String × List String))),
       Validate cfg fuel inp st = Validate cfg fuel inp { st with errorsMap := em }) ∧
    (∀ xs : List String, (removeDuplicates xs).Sublist xs ∧
       ∀ a, a ∈ removeDuplicates xs ↔ a ∈ xs) := by
  refine ⟨?_, ?_, ?_⟩
  · intro cfg fuel inp st p hp q hq
    simp only [Validate, allErrors] at hp
    rcases List.mem_singleton.mp hp with rfl
    rcases hem : (validateStruct cfg fuel inp { st with errorsMap := some [] }).2.2.errorsMap with
      _ | m0
    · rw [removeDuplicateErrors, hem] at hq
      rw [hem] at hq
      simp at hq
    · rw [removeDuplicateErrors, hem] at hq
      simp only [Option.getD_some] at hq
      obtain ⟨q0, hq0, rfl⟩ := List.mem_map.mp hq
      exact (removeDuplicates_spec q0.2).1
  · intro cfg fuel inp st em
    rfl
  · intro xs
    exact ⟨(removeDuplicates_spec xs).2.1, (removeDuplicates_spec xs).2.2⟩

/-- Witness for `c7_report_dedup_and_fresh` at concrete inputs: the one
message list in the report of a failing struct is duplicate-free, a
stale errors map in the incoming state does not change the result, and
`removeDuplicates` on a concrete list with a repeat keeps a sublist. -/
theorem c7_report_dedup_and_fresh_witness :
    ((("", ["non zero value required"]) : String × List String).2.Nodup) ∧
    (Validate modelCfg 10 (some exC4Struct) gs0 =
      Validate modelCfg 10 (some exC4Struct)
        { gs0 with errorsMap := some [("stale", ["old"])] }) ∧
    (removeDuplicates ["a", "b", "a"]).Sublist ["a", "b", "a"] :=
  ⟨c7_report_dedup_and_fresh.1 modelCfg 10 (some exC4Struct) gs0
      ("errors", [("", ["non zero value required"])]) (by decide)
      ("", ["non zero value required"]) (by decide),
   c7_report_dedup_and_fresh.2.1 modelCfg 10 (some exC4Struct) gs0
      (some [("stale", ["old"])]),
   (c7_report_dedup_and_fresh.2.2 ["a", "b", "a"]).1⟩

end GoValidator
